import Mathlib

/-!
Verification of the AI Tweet Detector scoring engine (the `AIDetector`
class of `content.js`).

The development shallowly embeds the analysis core: the duplicate tracker
(`normalizeText`, `calculateSimilarity`, `checkStructuralSimilarity`,
`checkDuplicateContent`, `addToCache`), the feature extractor
(`extractFeatures` and its helper predicates), the scorer
(`calculateAIScore`), and the facade (`analyze`, `getStats`,
`resetStats`).

Modelling conventions:
* JavaScript strings are Lean `String`s; `String.length` in JavaScript
  counts UTF-16 code units, modelled by `jsLength`.
* JavaScript numbers are modelled as exact rationals (`ℚ`); every
  constant in the engine is a short decimal, and only order comparisons
  and clamping of nonnegative sums matter to the claims.
* `text.toLowerCase()` is modelled by `lowerStr` (ASCII case folding,
  which covers every alphabet appearing in the detector's fixed lists).
* Regular expressions appearing in the source are embedded as explicit
  matchers over `List Char`; each matcher is annotated with the regex it
  implements.  Configurable regex lists (`aiPhrasePatterns`,
  `suspiciousLinkPatterns`) carry their matcher as a function, since the
  external `ai-patterns.json` resource is not part of the repository;
  the built-in defaults (`getDefaultPatterns`) are embedded exactly.
* The JavaScript `Map` backing the duplicate tracker is an
  insertion-ordered association list (`mapSet` updates in place, keeping
  the original position, exactly like `Map.prototype.set`).
-/

namespace AITweet

/-! ### Character classes (JavaScript regex semantics) -/

/-- JavaScript `\s`: the WhiteSpace and LineTerminator code points. -/
def jsIsWs (c : Char) : Bool :=
  let n := c.toNat
  n == 0x9 || n == 0xA || n == 0xB || n == 0xC || n == 0xD || n == 0x20 ||
  n == 0xA0 || n == 0x1680 || (decide (0x2000 ≤ n) && decide (n ≤ 0x200A)) ||
  n == 0x2028 || n == 0x2029 || n == 0x202F || n == 0x205F || n == 0x3000 ||
  n == 0xFEFF

/-- JavaScript `\w`: `[A-Za-z0-9_]`. -/
def wordChar (c : Char) : Bool :=
  (decide ('a' ≤ c) && decide (c ≤ 'z')) || (decide ('A' ≤ c) && decide (c ≤ 'Z')) ||
  (decide ('0' ≤ c) && decide (c ≤ '9')) || c == '_'

/-- JavaScript `\d`: `[0-9]`. -/
def isDigitCh (c : Char) : Bool := decide ('0' ≤ c) && decide (c ≤ '9')

/-- `[A-Z]`. -/
def isUpperCh (c : Char) : Bool := decide ('A' ≤ c) && decide (c ≤ 'Z')

/-- `[a-z]`. -/
def isLowerCh (c : Char) : Bool := decide ('a' ≤ c) && decide (c ≤ 'z')

/-- JavaScript `.` (without the `s` flag): any char except line terminators. -/
def dotChar (c : Char) : Bool :=
  !(c == '\n' || c == '\r' || c.toNat == 0x2028 || c.toNat == 0x2029)

/-- Line terminators, after which multiline `^` matches. -/
def lineTermCh (c : Char) : Bool :=
  c == '\n' || c == '\r' || c.toNat == 0x2028 || c.toNat == 0x2029

/-- The seven emoji ranges of `countEmojis` and the excessive-emoji regexes:
`[\u{1F300}-\u{1F9FF}\u{2600}-\u{26FF}\u{2700}-\u{27BF}\u{1F000}-\u{1F02F}
\u{1F0A0}-\u{1F0FF}\u{1F100}-\u{1F64F}\u{1F680}-\u{1F6FF}]`. -/
def emojiChar (c : Char) : Bool :=
  let n := c.toNat
  (decide (0x1F300 ≤ n) && decide (n ≤ 0x1F9FF)) ||
  (decide (0x2600 ≤ n) && decide (n ≤ 0x26FF)) ||
  (decide (0x2700 ≤ n) && decide (n ≤ 0x27BF)) ||
  (decide (0x1F000 ≤ n) && decide (n ≤ 0x1F02F)) ||
  (decide (0x1F0A0 ≤ n) && decide (n ≤ 0x1F0FF)) ||
  (decide (0x1F100 ≤ n) && decide (n ≤ 0x1F64F)) ||
  (decide (0x1F680 ≤ n) && decide (n ≤ 0x1F6FF))

/-- The three emoji ranges used by `hasEmojiInUsername`, `isShallowComment`
and `hasMixedFormalEmoji`. -/
def emojiChar3 (c : Char) : Bool :=
  let n := c.toNat
  (decide (0x1F300 ≤ n) && decide (n ≤ 0x1F9FF)) ||
  (decide (0x2600 ≤ n) && decide (n ≤ 0x26FF)) ||
  (decide (0x2700 ≤ n) && decide (n ≤ 0x27BF))

/-! ### String primitives -/

/-- JavaScript `String.prototype.length` (UTF-16 code units) of a char list. -/
def jsLengthL (cs : List Char) : Nat :=
  cs.foldl (fun n c => n + (if 0x10000 ≤ c.toNat then 2 else 1)) 0

/-- JavaScript `String.prototype.length` (UTF-16 code units). -/
def jsLength (s : String) : Nat := jsLengthL s.data

/-- JavaScript `toLowerCase()` (ASCII case folding, see module comment). -/
def lowerStr (s : String) : String := String.mk (s.data.map Char.toLower)

/-- JavaScript `trim()`: strip `\s` from both ends. -/
def jsTrim (cs : List Char) : List Char :=
  ((cs.dropWhile jsIsWs).reverse.dropWhile jsIsWs).reverse

/-- Match `pre` as the leading run of `cs`; return the remainder on success. -/
def stripLead : List Char → List Char → Option (List Char)
  | [], cs => some cs
  | _ :: _, [] => none
  | a :: pre, c :: cs => if a == c then stripLead pre cs else none

/-- Does `needle` occur as a contiguous run anywhere in the list? -/
def hasSub (needle : List Char) : List Char → Bool
  | [] => (stripLead needle []).isSome
  | c :: cs => (stripLead needle (c :: cs)).isSome || hasSub needle cs

/-- JavaScript `s.includes(sub)`. -/
def jsIncludes (s sub : String) : Bool := hasSub sub.data s.data

/-! ### Splitting -/

/-- Maximal runs of characters NOT satisfying `p` (the nonempty pieces of a
JavaScript `split` on a run of `p`-characters).  `acc` is the current run,
reversed. -/
def piecesOfAux (p : Char → Bool) (acc : List Char) : List Char → List (List Char)
  | [] => if acc.isEmpty then [] else [acc.reverse]
  | c :: cs =>
    if p c then
      if acc.isEmpty then piecesOfAux p [] cs else acc.reverse :: piecesOfAux p [] cs
    else piecesOfAux p (c :: acc) cs

/-- The nonempty pieces of a split of `cs` on runs of `p`-characters. -/
def piecesOf (p : Char → Bool) (cs : List Char) : List (List Char) :=
  piecesOfAux p [] cs

/-- `countWords`: `text.split(/\s+/).filter(w => w.length > 0).length`. -/
def countWords (text : String) : Nat := (piecesOf jsIsWs text.data).length

/-- JavaScript `s.split(' ')` (single-space separator; note `''.split(' ')`
is `['']`, and consecutive spaces produce empty pieces). -/
def splitSpace : List Char → List (List Char)
  | [] => [[]]
  | c :: cs =>
    if c == ' ' then [] :: splitSpace cs
    else
      match splitSpace cs with
      | [] => [[c]]
      | w :: ws => (c :: w) :: ws

mutual

/-- `text.split(/\n\n+/)`, piece under construction in `acc` (reversed):
a run of two or more newlines separates paragraphs. -/
def splitParasAux (acc : List Char) : List Char → List (List Char)
  | [] => [acc.reverse]
  | '\n' :: '\n' :: rest => acc.reverse :: splitParasSkip rest
  | c :: rest => splitParasAux (c :: acc) rest
  termination_by cs => 2 * cs.length

/-- Consume the remainder of a `\n\n+` separator run. -/
def splitParasSkip : List Char → List (List Char)
  | [] => splitParasAux [] []
  | '\n' :: rest => splitParasSkip rest
  | c :: rest => splitParasAux [] (c :: rest)
  termination_by cs => 2 * cs.length + 1

end

/-- `text.split(/\n\n+/)`. -/
def splitParas (cs : List Char) : List (List Char) := splitParasAux [] cs

/-- `replace(/\s+/g, ' ')`: collapse every whitespace run into one space.
The flag records whether the previous character was whitespace. -/
def collapseWsAux : Bool → List Char → List Char
  | _, [] => []
  | inWs, c :: cs =>
    if jsIsWs c then
      if inWs then collapseWsAux true cs else ' ' :: collapseWsAux true cs
    else c :: collapseWsAux false cs

/-- `replace(/\s+/g, ' ')`. -/
def collapseWs (cs : List Char) : List Char := collapseWsAux false cs

/-! ### Duplicate tracker -/

/-- `normalizeText`: lowercase, collapse whitespace runs to single spaces,
remove `[^\w\s]`, trim. -/
def normalizeText (text : String) : String :=
  String.mk (jsTrim (((collapseWs (lowerStr text).data).filter
    (fun c => wordChar c || jsIsWs c))))

/-- `this.maxCacheSize = 500`. -/
def maxCacheSize : Nat := 500

/-- `Map.prototype.set`: update the value in place when the key is present
(keeping its position in insertion order), otherwise append at the end. -/
def mapSet (k v : String) : List (String × String) → List (String × String)
  | [] => [(k, v)]
  | e :: m => if e.1 == k then (k, v) :: m else e :: mapSet k v m

/-- `Map.prototype.delete`: remove the entry with the given key. -/
def mapDelete (k : String) : List (String × String) → List (String × String)
  | [] => []
  | e :: m => if e.1 == k then m else e :: mapDelete k m

/-- Keys of the tracker in insertion order. -/
def keysOf (m : List (String × String)) : List String := m.map Prod.fst

/-- The eviction loop of `addToCache`: take the first 100 keys from the
map's key iterator and delete each truthy one (`if (key)` skips the empty
string, and skips `undefined` when fewer than 100 keys exist). -/
def cleanupOldest (m : List (String × String)) : List (String × String) :=
  ((keysOf m).take 100).foldl
    (fun acc key => if key != "" then mapDelete key acc else acc) m

/-- `addToCache(text, username)`: insert the normalized text, then evict
when the map has grown past `maxCacheSize`. -/
def addToCache (text username : String) (recentTweets : List (String × String)) :
    List (String × String) :=
  let normalized := normalizeText text
  let m := mapSet normalized username recentTweets
  if maxCacheSize < m.length then cleanupOldest m else m

/-- Record a batch of `(text, username)` posts through `addToCache`. -/
def recordAll (posts : List (String × String)) (rt : List (String × String)) :
    List (String × String) :=
  posts.foldl (fun acc p => addToCache p.1 p.2 acc) rt

/-- `calculateSimilarity(text1, text2)`: Jaccard similarity of the
space-separated word sets. -/
def calculateSimilarity (text1 text2 : String) : ℚ :=
  let words1 := splitSpace text1.data
  let words2 := splitSpace text2.data
  if words1.length == 0 || words2.length == 0 then 0
  else
    let set1 := words1.dedup
    let set2 := words2.dedup
    let inter := set1.filter (fun w => set2.contains w)
    let uni := (set1 ++ set2).dedup
    (inter.length : ℚ) / (uni.length : ℚ)

/-- The word bigrams `words1[i] ++ " " ++ words1[i+1]` of the probe that
occur verbatim in the cached text. -/
def bigramMatchCount (text2 : List Char) : List (List Char) → Nat
  | [] => 0
  | [_] => 0
  | w1 :: w2 :: ws =>
    (if hasSub (w1 ++ ' ' :: w2) text2 then 1 else 0) + bigramMatchCount text2 (w2 :: ws)

/-- `checkStructuralSimilarity(text1, text2)`. -/
def checkStructuralSimilarity (text1 text2 : String) : Bool :=
  let words1 := splitSpace text1.data
  let words2 := splitSpace text2.data
  if 3 < ((words1.length : ℤ) - (words2.length : ℤ)).natAbs then false
  else if words1.length ≤ 8 ∧ words2.length ≤ 8 then
    decide (4 ≤ (words1.filter (fun w => words2.contains w)).length)
  else
    decide (((words1.length : ℚ) - 1) * (1/2) ≤ (bigramMatchCount text2.data words1 : ℚ))

/-- `checkDuplicateContent(text, username)`: some cached entry from a
different author matches exactly, by Jaccard similarity above 0.60, or by
structural similarity. -/
def checkDuplicateContent (recentTweets : List (String × String))
    (text username : String) : Bool :=
  let normalized := normalizeText text
  recentTweets.any (fun e =>
    (e.2 != username && e.1 == normalized) ||
    (e.2 != username && decide ((6 : ℚ)/10 < calculateSimilarity normalized e.1)) ||
    (e.2 != username && checkStructuralSimilarity normalized e.1))

/-! ### Stylometric helpers -/

/-- `[.!?]`, the sentence separators of `getAvgSentenceLength`. -/
def sentencePunct (c : Char) : Bool := c == '.' || c == '!' || c == '?'

/-- `getAvgSentenceLength`: split on `/[.!?]+/`, keep pieces with nonempty
trim, average the per-sentence word counts (0 when no sentence remains).
The split's empty pieces are dropped by the trim filter, so only the
maximal separator-free runs (`piecesOf`) matter. -/
def getAvgSentenceLength (text : String) : ℚ :=
  let sentences := (piecesOf sentencePunct text.data).filter
    (fun s => !(jsTrim s).isEmpty)
  if sentences.length == 0 then 0
  else
    let totalWords := sentences.foldl (fun sum s => sum + (piecesOf jsIsWs s).length) 0
    (totalWords : ℚ) / (sentences.length : ℚ)

/-- `getVocabularyDiversity`: unique words / total words of the lowercased
text (0 when empty). -/
def getVocabularyDiversity (text : String) : ℚ :=
  let words := piecesOf jsIsWs (lowerStr text).data
  if words.length == 0 then 0
  else ((words.dedup).length : ℚ) / (words.length : ℚ)

/-- The fixed six formal connectives of `getFormalityScore`. -/
def formalWords : List String :=
  ["therefore", "furthermore", "moreover", "consequently", "thus", "hence"]

/-- The fixed five contractions of `getFormalityScore`. -/
def contractions : List String :=
  ["don\x27t", "can\x27t", "won\x27t", "shouldn\x27t", "wouldn\x27t"]

/-- The fixed six slang tokens of `getFormalityScore`. -/
def slangWords : List String := ["lol", "lmao", "bruh", "ngl", "fr", "tbh"]

/-- `getFormalityScore`: start from 0, add 0.15 per formal connective found
in the lowercased text, subtract 0.1 per contraction and 0.15 per slang
token found, then return `max(0, min(1, 0.5 + score))`. -/
def getFormalityScore (text : String) : ℚ :=
  let lowerText := lowerStr text
  let s1 : ℚ := formalWords.foldl
    (fun acc w => if jsIncludes lowerText w then acc + 0.15 else acc) 0
  let s2 : ℚ := contractions.foldl
    (fun acc w => if jsIncludes lowerText w then acc - 0.1 else acc) s1
  let s3 : ℚ := slangWords.foldl
    (fun acc w => if jsIncludes lowerText w then acc - 0.15 else acc) s2
  max 0 (min 1 (0.5 + s3))

/-! ### Pattern engine

A tiny matcher for the fixed regular expressions of the detector.  Each
token is one regex construct; alternations in the source regexes are
expanded into one token list per alternative. -/

/-- One matcher token: a literal run, `\s+`, `\w+`, `.+`, or `[\s!.]*`. -/
inductive PTok where
  | lit (s : List Char)
  | wsPlus
  | wordPlus
  | anyPlus
  | trailStar

/-- `[\s!.]`, the trailing class of the shallow-comment regexes. -/
def isTrail (c : Char) : Bool := jsIsWs c || c == '!' || c == '.'

/-- Match a token list against `cs` from the front, with backtracking.
`anchEnd` demands the whole input be consumed (a trailing `$`). -/
def pmatch (anchEnd : Bool) : List PTok → List Char → Bool
  | [], cs => !anchEnd || cs.isEmpty
  | .lit [] :: ts, cs => pmatch anchEnd ts cs
  | .lit (_ :: _) :: _, [] => false
  | .lit (a :: s) :: ts, c :: cs => a == c && pmatch anchEnd (.lit s :: ts) cs
  | .wsPlus :: _, [] => false
  | .wsPlus :: ts, c :: cs =>
    jsIsWs c && (pmatch anchEnd ts cs || pmatch anchEnd (.wsPlus :: ts) cs)
  | .wordPlus :: _, [] => false
  | .wordPlus :: ts, c :: cs =>
    wordChar c && (pmatch anchEnd ts cs || pmatch anchEnd (.wordPlus :: ts) cs)
  | .anyPlus :: _, [] => false
  | .anyPlus :: ts, c :: cs =>
    dotChar c && (pmatch anchEnd ts cs || pmatch anchEnd (.anyPlus :: ts) cs)
  | .trailStar :: ts, [] => pmatch anchEnd ts []
  | .trailStar :: ts, c :: cs =>
    pmatch anchEnd ts (c :: cs) || (isTrail c && pmatch anchEnd (.trailStar :: ts) cs)
  termination_by ts cs => (cs.length, sizeOf ts)

/-- Unanchored regex `test`: try a match at every start position. -/
def psearch (ts : List PTok) : List Char → Bool
  | [] => pmatch false ts []
  | c :: cs => pmatch false ts (c :: cs) || psearch ts cs

/-! ### Pattern store

`this.patterns` is loaded from the external `ai-patterns.json` resource
(not part of the repository) with `getDefaultPatterns()` as the fallback.
The store is modelled as a loaded configuration value; a configurable
regex is carried as its source string plus a total matcher (the source
wraps each use in try/catch, skipping invalid patterns).  Absent optional
fields are modelled as empty lists: the source guards each access with
falsy checks and `|| []`, both of which yield "no matches". -/

structure JsRegex where
  src : String
  test : String → Bool

structure SpamIndicators where
  genericResponses : List String := []
  cryptoKeywords : List String := []
  adultContentKeywords : List String := []
  promotionalPhrases : List String := []
  suspiciousLinkPatterns : List JsRegex := []

structure PatternConfig where
  aiIndicatorWords : List String := []
  aiPhrasePatterns : List JsRegex := []
  spamIndicators : SpamIndicators := {}

/-- Default pattern `"it's not .+ it's .+"` (case-insensitive, applied to
the lowercased text). -/
def phrasePattern1 : JsRegex :=
  { src := "it\x27s not .+ it\x27s .+"
    test := fun s => psearch
      [.lit "it\x27s not ".data, .anyPlus, .lit " it\x27s ".data, .anyPlus] s.data }

/-- Default pattern `"as an AI"` (case-insensitive, applied to the
lowercased text, hence the lowercase literal). -/
def phrasePattern2 : JsRegex :=
  { src := "as an AI", test := fun s => psearch [.lit "as an ai".data] s.data }

/-- `getDefaultPatterns()`.  The `punctuationPatterns` and
`spamIndicators.excessiveHashtags` entries of the source object are never
read by the engine and are omitted. -/
def getDefaultPatterns : PatternConfig :=
  { aiIndicatorWords := ["delve", "tapestry", "intricate", "nuanced", "multifaceted"]
    aiPhrasePatterns := [phrasePattern1, phrasePattern2]
    spamIndicators := {} }

/-! ### Lexical and phrase features -/

/-- Is the previous character a word boundary partner (absent or
non-word)? -/
def boundaryOk : Option Char → Bool
  | none => true
  | some c => !wordChar c

/-- Count the occurrences of `\bw\b` in `cs`, given the preceding
character.  Word-boundary matches of a fixed word cannot overlap, so the
global-regex match count is the number of matching start positions. -/
def countOccWB (w : List Char) : Option Char → List Char → Nat
  | prev, cs =>
    (if (match stripLead w cs with
         | some rest => boundaryOk prev &&
            (match rest with | [] => true | c :: _ => !wordChar c)
         | none => false) then 1 else 0) +
    (match cs with
     | [] => 0
     | c :: cs => countOccWB w (some c) cs)

/-- `countAIWords`: sum over the indicator words of the number of
case-insensitive word-boundary occurrences in the text. -/
def countAIWords (cfg : PatternConfig) (text : String) : Nat :=
  let lowerText := lowerStr text
  cfg.aiIndicatorWords.foldl
    (fun count w => count + countOccWB (lowerStr w).data none lowerText.data) 0

/-- `matchAIPhrases`: the source strings of the phrase patterns that match
the lowercased text, in configuration order. -/
def matchAIPhrases (cfg : PatternConfig) (text : String) : List String :=
  let lowerText := lowerStr text
  (cfg.aiPhrasePatterns.filter (fun p => p.test lowerText)).map (fun p => p.src)

/-! ### Emoji features -/

/-- `countEmojis`: the number of code points in the seven emoji ranges. -/
def countEmojis (text : String) : Nat := (text.data.filter emojiChar).length

/-- `/(emoji){2,}\s*$/`: after stripping trailing whitespace, the text ends
with two or more emoji. -/
def endsWithTwoEmojis (text : String) : Bool :=
  match text.data.reverse.dropWhile jsIsWs with
  | c1 :: c2 :: _ => emojiChar c1 && emojiChar c2
  | _ => false

/-- Lines (split on `/\n+/`) whose trim is nonempty and all emoji. -/
def emojiOnlyLineCount (text : String) : Nat :=
  ((piecesOf (fun c => c == '\n') text.data).filter
    (fun line => let t := jsTrim line; !t.isEmpty && t.all emojiChar)).length

/-- `/(emoji)\1+/u`: some emoji immediately repeated. -/
def hasRepeatedEmojiL : List Char → Bool
  | c1 :: c2 :: rest => (emojiChar c1 && c1 == c2) || hasRepeatedEmojiL (c2 :: rest)
  | _ => false

/-- `hasExcessiveEmojis`: the five spam conditions, any one sufficing. -/
def hasExcessiveEmojis (text : String) : Bool :=
  let emojiCount := countEmojis text
  let totalChars := jsLength text
  let words := countWords text
  if 3 < emojiCount ∧ words < 20 then true
  else if (1 : ℚ)/10 < (emojiCount : ℚ) / (max totalChars 1 : ℚ) ∧ 3 ≤ emojiCount then true
  else if endsWithTwoEmojis text then true
  else if 1 ≤ emojiOnlyLineCount text then true
  else if hasRepeatedEmojiL text.data then true
  else false

/-! ### Generic responses and spam lists -/

/-- `hasGenericResponse`: the trimmed lowercased text equals a template, or
starts with it plus a space, `!` or `.`, or contains it after a space
(with a space, `!`, or nothing after).  A missing template list (the
default configuration) yields `false`. -/
def hasGenericResponse (cfg : PatternConfig) (text : String) : Bool :=
  let lowerText := jsTrim (lowerStr text).data
  cfg.spamIndicators.genericResponses.any (fun response =>
    let lr := (lowerStr response).data
    lowerText == lr ||
    (stripLead (lr ++ [' ']) lowerText).isSome ||
    (stripLead (lr ++ ['!']) lowerText).isSome ||
    (stripLead (lr ++ ['.']) lowerText).isSome ||
    hasSub (' ' :: lr ++ [' ']) lowerText ||
    hasSub (' ' :: lr ++ ['!']) lowerText ||
    hasSub (' ' :: lr) lowerText)

/-- `hasCryptoSpam`: two or more crypto keywords found (each matched
case-sensitively against the text or case-insensitively against the
lowercased text). -/
def hasCryptoSpam (cfg : PatternConfig) (text : String) : Bool :=
  let lowerText := lowerStr text
  decide (2 ≤ cfg.spamIndicators.cryptoKeywords.countP
    (fun k => jsIncludes text k || jsIncludes lowerText (lowerStr k)))

/-- `hasAdultContentPromo`: some adult keyword occurs in the lowercased
text. -/
def hasAdultContentPromo (cfg : PatternConfig) (text : String) : Bool :=
  let lowerText := lowerStr text
  cfg.spamIndicators.adultContentKeywords.any
    (fun k => jsIncludes lowerText (lowerStr k))

/-- `hasPromotionalContent`: two or more promotional phrases found in the
lowercased text. -/
def hasPromotionalContent (cfg : PatternConfig) (text : String) : Bool :=
  let lowerText := lowerStr text
  decide (2 ≤ cfg.spamIndicators.promotionalPhrases.countP
    (fun p => jsIncludes lowerText (lowerStr p)))

/-- `hasSuspiciousLinks`: some configured link pattern matches the text. -/
def hasSuspiciousLinks (cfg : PatternConfig) (text : String) : Bool :=
  cfg.spamIndicators.suspiciousLinkPatterns.any (fun p => p.test text)

/-! ### Links -/

/-- `https?:\/\/` at the head of the list: the remainder after the scheme,
if present. -/
def schemeRest (t : List Char) : Option (List Char) :=
  match stripLead "https://".data t with
  | some rest => some rest
  | none => stripLead "http://".data t

/-- Does a match of `/https?:\/\/\S+/` start here (scheme plus at least
one non-whitespace character)? -/
def linkAt (cs : List Char) : Bool :=
  match schemeRest cs with
  | some (r :: _) => !jsIsWs r
  | _ => false

/-- Count matches of `/https?:\/\/\S+/g`.  The flag records being inside a
previous match's greedy `\S+` span, which extends to the next whitespace
character; no new match can start there. -/
def linkCountGo : Bool → List Char → Nat
  | _, [] => 0
  | true, c :: cs => linkCountGo (!jsIsWs c) cs
  | false, c :: cs =>
    if linkAt (c :: cs) then 1 + linkCountGo true cs else linkCountGo false cs

/-- `(text.match(/https?:\/\/\S+/g) || []).length`. -/
def linkCount (text : String) : Nat := linkCountGo false text.data

/-! ### Citations (`hasCitations`)

`/\b(Act of \d{4}|Article \d+|Section \d+|\d{4}\s+[A-Z][a-z]+\s+[A-Z][a-z]+)\b/`
applied to the raw text.  Every alternative begins with a word character,
so the leading `\b` amounts to the previous character being absent or
non-word; digits and letters are word characters, so the embedded `\d+`,
`[a-z]+` runs must be maximal for the following token to match. -/

/-- Head of the list is absent or a non-word character (a trailing `\b`
after a word character). -/
def nonWordNext : List Char → Bool
  | [] => true
  | c :: _ => !wordChar c

/-- `\d+\b`: at least one digit, then a boundary after the maximal digit
run. -/
def digitRunBoundary : List Char → Bool
  | [] => true
  | c :: cs => if isDigitCh c then digitRunBoundary cs else !wordChar c

/-- `\d+\b` with the nonempty requirement. -/
def citNumTail : List Char → Bool
  | [] => false
  | c :: cs => isDigitCh c && digitRunBoundary cs

/-- `Act of \d{4}` followed by `\b`. -/
def citActOf (cs : List Char) : Bool :=
  match stripLead "Act of ".data cs with
  | some (d1 :: d2 :: d3 :: d4 :: rest) =>
    isDigitCh d1 && isDigitCh d2 && isDigitCh d3 && isDigitCh d4 && nonWordNext rest
  | _ => false

/-- `Article \d+` followed by `\b`. -/
def citArticle (cs : List Char) : Bool :=
  match stripLead "Article ".data cs with
  | some rest => citNumTail rest
  | none => false

/-- `Section \d+` followed by `\b`. -/
def citSection (cs : List Char) : Bool :=
  match stripLead "Section ".data cs with
  | some rest => citNumTail rest
  | none => false

/-- `[A-Z][a-z]+`: a capitalized word; returns the remainder after the
maximal lowercase run. -/
def capWord : List Char → Option (List Char)
  | c :: d :: ds =>
    if isUpperCh c ∧ isLowerCh d then some ((d :: ds).dropWhile isLowerCh) else none
  | _ => none

/-- `\d{4}\s+[A-Z][a-z]+\s+[A-Z][a-z]+` followed by `\b`. -/
def citYearNames (cs : List Char) : Bool :=
  match cs with
  | d1 :: d2 :: d3 :: d4 :: rest =>
    isDigitCh d1 && isDigitCh d2 && isDigitCh d3 && isDigitCh d4 &&
    (match rest with
     | r :: rs =>
       jsIsWs r &&
       (match capWord ((r :: rs).dropWhile jsIsWs) with
        | some (t :: ts) =>
          jsIsWs t &&
          (match capWord ((t :: ts).dropWhile jsIsWs) with
           | some rest3 => nonWordNext rest3
           | none => false)
        | _ => false)
     | [] => false)
  | _ => false

/-- Scan every position with its preceding character for one of the four
citation alternatives. -/
def hasCitationsAux : Option Char → List Char → Bool
  | prev, cs =>
    (boundaryOk prev &&
      (citActOf cs || citArticle cs || citSection cs || citYearNames cs)) ||
    (match cs with
     | [] => false
     | c :: rest => hasCitationsAux (some c) rest)

/-- `hasCitations`. -/
def hasCitations (text : String) : Bool := hasCitationsAux none text.data

/-! ### Jargon, sources, balance, hooks -/

/-- The fixed legal-term list of `hasLegalJargon`. -/
def legalTerms : List String :=
  ["jurisdiction", "federal law", "diplomatic immunity", "statute",
   "enforcement", "pursuant to", "hereby", "thereof", "whereby",
   "act of", "article", "section", "clause", "protocol",
   "authorities", "warrants", "illegal order", "federal authorities"]

/-- `hasLegalJargon`: three or more legal terms occur in the lowercased
text. -/
def hasLegalJargon (text : String) : Bool :=
  let lowerText := lowerStr text
  decide (3 ≤ legalTerms.countP (fun t => jsIncludes lowerText t))

/-- `hasMixedFormalEmoji`: at least 50 words, contains an emoji (three
ranges), and formality above 0.6. -/
def hasMixedFormalEmoji (text : String) : Bool :=
  if countWords text < 50 then false
  else if !(text.data.any emojiChar3) then false
  else decide ((6 : ℚ)/10 < getFormalityScore text)

/-- The fixed outlet/attribution list of `hasMultipleSources`. -/
def sourcesList : List String :=
  ["bbc", "cnn", "reuters", "al jazeera", "the guardian", "new york times",
   "washington post", "associated press", "bloomberg", "forbes",
   "wall street journal", "propphy", "socialrails", "times", "un data",
   "per ", "as per", "according to", "sources like"]

/-- `hasMultipleSources`: two or more sources cited. -/
def hasMultipleSources (text : String) : Bool :=
  let lowerText := lowerStr text
  decide (2 ≤ sourcesList.countP (fun s => jsIncludes lowerText s))

/-- The fixed contrast-phrase list of `hasBalancedCommentary`. -/
def balancedPhrases : List String :=
  ["in contrast", "however", "on the other hand", "while",
   "perspectives vary", "views vary", "both", "either",
   "some say", "others argue", "but also", "yet"]

/-- `hasBalancedCommentary`: two or more contrast phrases and more than 30
words. -/
def hasBalancedCommentary (text : String) : Bool :=
  let lowerText := lowerStr text
  decide (2 ≤ balancedPhrases.countP (fun p => jsIncludes lowerText p)) &&
  decide (30 < countWords text)

/-- The engagement-question regexes of `hasConversationalHook` (all
case-insensitive, matched against the lowercased text; the alternation of
the first regex is expanded). -/
def hookPatterns : List (List PTok) :=
  (["main use case", "take", "view", "thought", "opinion"].map fun b =>
    [PTok.lit ("what\x27s your " ++ b ++ "?").data]) ++
  [[PTok.lit "your take?".data],
   [PTok.lit "what do you think?".data],
   [PTok.lit "thoughts?".data],
   [PTok.lit "what part\x27s the".data],
   [PTok.lit "share ".data, PTok.anyPlus, PTok.lit " when you can".data],
   [PTok.lit "what evidence sways you".data]]

/-- `hasConversationalHook`. -/
def hasConversationalHook (text : String) : Bool :=
  hookPatterns.any (fun ts => psearch ts (lowerStr text).data)

/-! ### Username and shallow-comment features -/

/-- `^[A-Z][a-z]+\d{4,}$` (e.g. `John12345`). -/
def susp1 : List Char → Bool
  | c :: cs =>
    isUpperCh c &&
    !(cs.takeWhile isLowerCh).isEmpty &&
    (let rest := cs.dropWhile isLowerCh
     decide (4 ≤ rest.length) && rest.all isDigitCh)
  | [] => false

/-- `^[A-Z][a-z]+_[A-Z][a-z]+\d+$` (e.g. `John_Smith123`). -/
def susp2 : List Char → Bool
  | c :: cs =>
    isUpperCh c &&
    !(cs.takeWhile isLowerCh).isEmpty &&
    (match cs.dropWhile isLowerCh with
     | '_' :: c2 :: cs2 =>
       isUpperCh c2 &&
       !(cs2.takeWhile isLowerCh).isEmpty &&
       (let r2 := cs2.dropWhile isLowerCh
        !r2.isEmpty && r2.all isDigitCh)
     | _ => false)
  | [] => false

/-- `^\w+\d{8,}$`: all word characters, a trailing digit run of at least
8, and at least one character before it. -/
def susp3 (cs : List Char) : Bool :=
  cs.all wordChar && decide (9 ≤ cs.length) &&
  decide (8 ≤ (cs.reverse.takeWhile isDigitCh).length)

/-- `^\w+\d{1,2}$`: all word characters, at least 2 of them, ending in a
digit. -/
def susp4 (cs : List Char) : Bool :=
  cs.all wordChar && decide (2 ≤ cs.length) &&
  (match cs.reverse with
   | c :: _ => isDigitCh c
   | [] => false)

/-- `^[a-z]+\d{1,3}$`: a lowercase run then one to three digits. -/
def susp5 (cs : List Char) : Bool :=
  !(cs.takeWhile isLowerCh).isEmpty &&
  (let rest := cs.dropWhile isLowerCh
   rest.all isDigitCh && decide (1 ≤ rest.length) && decide (rest.length ≤ 3))

/-- `isSuspiciousUsername`: any of the five username regexes. -/
def isSuspiciousUsername (username : String) : Bool :=
  susp1 username.data || susp2 username.data || susp3 username.data ||
  susp4 username.data || susp5 username.data

/-- `hasEmojiInUsername`: the display name contains an emoji (three
ranges). -/
def hasEmojiInUsername (username : String) : Bool :=
  username.data.any emojiChar3

/-- The shallow-comment template regexes (anchored, with the alternations
expanded); tested against the trimmed lowercased text. -/
def shallowPatterns : List (List PTok) :=
  (["wow", "amazing", "nice", "cool", "great", "good", "beautiful", "awesome",
    "incredible", "perfect", "lovely", "stunning"].map fun w =>
    [PTok.lit w.data, PTok.trailStar]) ++
  (["love", "need", "want", "like"].flatMap fun a =>
    (["this", "it", "that"].map fun b =>
      [PTok.lit a.data, PTok.wsPlus, PTok.lit b.data, PTok.trailStar]) ++
    [[PTok.lit a.data, PTok.wsPlus, PTok.lit "the".data, PTok.wsPlus,
      PTok.wordPlus, PTok.trailStar]]) ++
  (["god", "gosh"].map fun b =>
    [PTok.lit "oh".data, PTok.wsPlus, PTok.lit "my".data, PTok.wsPlus,
     PTok.lit b.data, PTok.trailStar]) ++
  (["true", "real", "facts"].flatMap fun b =>
    [[PTok.lit b.data, PTok.trailStar],
     [PTok.lit "so".data, PTok.wsPlus, PTok.lit b.data, PTok.trailStar]]) ++
  (["yes", "yeah", "yep", "nope", "no", "exactly"].map fun b =>
    [PTok.lit b.data, PTok.trailStar]) ++
  [[PTok.lit "the".data, PTok.wsPlus, PTok.lit "best".data, PTok.trailStar],
   [PTok.lit "bravo".data, PTok.trailStar]] ++
  (["cool", "good", "nice"].flatMap fun a =>
    ["for", "tactic", "idea", "dude", "point"].map fun b =>
      [PTok.lit a.data, PTok.wsPlus, PTok.lit b.data, PTok.trailStar]) ++
  (["real", "playa"].map fun a =>
    [PTok.lit a.data, PTok.wsPlus, PTok.wordPlus, PTok.trailStar])

/-- `isShallowComment`: emoji-only text, a single short word, or a short
tweet matching a shallow template. -/
def isShallowComment (text : String) : Bool :=
  let normalized := jsTrim (lowerStr text).data
  let words := countWords text
  let textWithoutEmojis := jsTrim (text.data.filter (fun c => !emojiChar3 c))
  if textWithoutEmojis.isEmpty ∧ ¬ text.data.isEmpty then true
  else if words == 1 ∧ jsLengthL normalized < 15 then true
  else if words ≤ 4 ∧ jsLength text < 30 then
    shallowPatterns.any (fun ts => pmatch true ts normalized)
  else false

/-! ### Structure counts -/

/-- Count of `#\w+` (resp. `@\w+`) matches: positions holding the mark
followed by a word character (matches cannot overlap a later mark). -/
def tagCount (mark : Char) : List Char → Nat
  | a :: b :: rest => (if a == mark && wordChar b then 1 else 0) + tagCount mark (b :: rest)
  | _ => 0

/-- Does a match of `\b[A-Z]{3,}\b` start here: a maximal run of at least
three capitals whose follower is non-word? -/
def capsRunOK (cs : List Char) : Bool :=
  decide (3 ≤ (cs.takeWhile isUpperCh).length) && nonWordNext (cs.dropWhile isUpperCh)

/-- Count of `\b[A-Z]{3,}\b` matches: qualifying run starts (positions
inside a run fail the preceding-boundary test, so none is counted
twice). -/
def allCapsAux : Option Char → List Char → Nat
  | _, [] => 0
  | prev, c :: cs =>
    (if boundaryOk prev && capsRunOK (c :: cs) then 1 else 0) + allCapsAux (some c) cs

/-- `(text.match(/\b[A-Z]{3,}\b/g) || []).length`. -/
def allCapsCount (text : String) : Nat := allCapsAux none text.data

/-- `/^\d+[\.\)]\s/` at a line start. -/
def numberedAt (cs : List Char) : Bool :=
  !(cs.takeWhile isDigitCh).isEmpty &&
  (match cs.dropWhile isDigitCh with
   | p :: s :: _ => (p == '.' || p == ')') && jsIsWs s
   | _ => false)

/-- Scan for `/^\d+[\.\)]\s/m`: the flag records being at the start of the
text or just after a line terminator. -/
def hasNumberedListAux : Bool → List Char → Bool
  | atStart, cs =>
    (atStart && numberedAt cs) ||
    (match cs with
     | [] => false
     | c :: rest => hasNumberedListAux (lineTermCh c) rest)

/-- `hasNumberedList`. -/
def hasNumberedList (text : String) : Bool := hasNumberedListAux true text.data

/-- `/[•·▪▫]/`: a bullet glyph occurs. -/
def hasBulletPoints (text : String) : Bool :=
  text.data.any (fun c =>
    c.toNat == 0x2022 || c.toNat == 0xB7 || c.toNat == 0x25AA || c.toNat == 0x25AB)

/-- Count of characters satisfying `p` (a single-char global regex). -/
def countChar (p : Char → Bool) (text : String) : Nat := (text.data.filter p).length

/-! ### Feature extraction -/

/-- The metadata fields read by the engine.  JavaScript absence and the
falsy guards (`metadata.username ? … : false` and the like) are modelled
by the empty string, `false`, and `none`; `timestamp`/`isVerified` are
never read by the engine and are omitted. -/
structure Metadata where
  username : String := ""
  displayName : String := ""
  hasAffiliateBadge : Bool := false
  accountAge : Option ℚ := none

/-- The feature vector of `extractFeatures`, field for field. -/
structure Features where
  aiWordCount : Nat
  totalWords : Nat
  aiPhraseMatches : List String
  emDashCount : Nat
  colonCount : Nat
  semicolonCount : Nat
  quotationCount : Nat
  hasBulletPoints : Bool
  hasNumberedList : Bool
  paragraphCount : Nat
  isLongThread : Bool
  hasCitations : Bool
  hasLegalJargon : Bool
  hasMixedFormalEmoji : Bool
  hasMultipleSources : Bool
  hasBalancedCommentary : Bool
  hasConversationalHook : Bool
  hashtagCount : Nat
  mentionCount : Nat
  allCapsWords : Nat
  emojiCount : Nat
  hasExcessiveEmojis : Bool
  hasGenericResponse : Bool
  hasCryptoSpam : Bool
  hasAdultContentPromo : Bool
  hasPromotionalContent : Bool
  linkCount : Nat
  hasSuspiciousLinks : Bool
  avgSentenceLength : ℚ
  vocabularyDiversity : ℚ
  formalityScore : ℚ
  isNewAccount : Bool
  hasSuspiciousName : Bool
  hasAffiliateBadge : Bool
  hasEmojiUsername : Bool
  isVeryShortTweet : Bool
  isShallowComment : Bool
  isDuplicateContent : Bool

/-- `extractFeatures(text, metadata)`: the feature vector computed from the
current tracker state, paired with the tracker state after the trailing
`addToCache` call.  The em-dash is U+2014, the quotation class is
`[“”"]`, the bullet glyphs are U+2022/U+00B7/U+25AA/U+25AB. -/
def extractFeatures (cfg : PatternConfig) (text : String) (md : Metadata)
    (recentTweets : List (String × String)) :
    Features × List (String × String) :=
  let totalWords := countWords text
  let paragraphs := (splitParas text.data).filter (fun p => !(jsTrim p).isEmpty)
  ({ aiWordCount := countAIWords cfg text
     totalWords := totalWords
     aiPhraseMatches := matchAIPhrases cfg text
     emDashCount := countChar (fun c => c.toNat == 0x2014) text
     colonCount := countChar (fun c => c == ':') text
     semicolonCount := countChar (fun c => c == ';') text
     quotationCount := countChar
       (fun c => c.toNat == 0x201C || c.toNat == 0x201D || c == '"') text
     hasBulletPoints := hasBulletPoints text
     hasNumberedList := hasNumberedList text
     paragraphCount := paragraphs.length
     isLongThread := decide (100 < totalWords) && decide (2 < paragraphs.length)
     hasCitations := hasCitations text
     hasLegalJargon := hasLegalJargon text
     hasMixedFormalEmoji := hasMixedFormalEmoji text
     hasMultipleSources := hasMultipleSources text
     hasBalancedCommentary := hasBalancedCommentary text
     hasConversationalHook := hasConversationalHook text
     hashtagCount := tagCount '#' text.data
     mentionCount := tagCount '@' text.data
     allCapsWords := allCapsCount text
     emojiCount := countEmojis text
     hasExcessiveEmojis := hasExcessiveEmojis text
     hasGenericResponse := hasGenericResponse cfg text
     hasCryptoSpam := hasCryptoSpam cfg text
     hasAdultContentPromo := hasAdultContentPromo cfg text
     hasPromotionalContent := hasPromotionalContent cfg text
     linkCount := linkCount text
     hasSuspiciousLinks := hasSuspiciousLinks cfg text
     avgSentenceLength := getAvgSentenceLength text
     vocabularyDiversity := getVocabularyDiversity text
     formalityScore := getFormalityScore text
     isNewAccount :=
       match md.accountAge with
       | none => false
       | some a => if a == 0 then false else decide (a < 90)
     hasSuspiciousName :=
       if md.username == "" then false else isSuspiciousUsername md.username
     hasAffiliateBadge := md.hasAffiliateBadge
     hasEmojiUsername :=
       if md.displayName == "" then false else hasEmojiInUsername md.displayName
     isVeryShortTweet := decide (totalWords ≤ 3) && decide (jsLength text < 30)
     isShallowComment := isShallowComment text
     isDuplicateContent := checkDuplicateContent recentTweets text md.username },
   addToCache text md.username recentTweets)

/-- The JavaScript `extractFeatures` applied to a possibly null text: its
first statement `this.countWords(text)` evaluates `text.split(/\s+/)`,
which throws a `TypeError` when `text` is `null`; a string runs the total
pipeline. -/
def extractFeaturesJS (cfg : PatternConfig) (text : Option String) (md : Metadata)
    (recentTweets : List (String × String)) :
    Except String (Features × List (String × String)) :=
  match text with
  | none => Except.error "TypeError: text.split is not a function on null"
  | some t => Except.ok (extractFeatures cfg t md recentTweets)

/-! ### Scoring -/

/-- `Number.prototype.toFixed(1)` for the nonnegative values interpolated
into reason strings. -/
def fixed1 (q : ℚ) : String :=
  let n := (q * 10 + 1/2).floor.toNat
  toString (n / 10) ++ "." ++ toString (n % 10)

/-- One `if (flag) { score += inc; reasons.push(reason); }` step. -/
def flagStep (b : Bool) (inc : ℚ) (reason : String) (acc : ℚ × List String) :
    ℚ × List String :=
  if b then (acc.1 + inc, acc.2 ++ [reason]) else acc

/-- The AI-word category: weight 0.25; ratio above 1% scores
`min(ratio·25, 1)`, with a reason above 2%. -/
def aiWordPart (f : Features) : ℚ × List String :=
  let aiWordRatio : ℚ := (f.aiWordCount : ℚ) / (max f.totalWords 1 : ℚ)
  if (1 : ℚ)/100 < aiWordRatio then
    (min (aiWordRatio * 25) 1 * 0.25,
     if (2 : ℚ)/100 < aiWordRatio then
       ["High AI vocabulary usage (" ++ fixed1 (aiWordRatio * 100) ++ "%)"]
     else [])
  else (0, [])

/-- The AI-phrase category: weight 0.30; `min(matches·0.6, 1)` with the
first two matched pattern sources in the reason. -/
def aiPhrasePart (f : Features) : ℚ × List String :=
  if 0 < f.aiPhraseMatches.length then
    (min ((f.aiPhraseMatches.length : ℚ) * 0.6) 1 * 0.30,
     ["AI phrase patterns detected: " ++
       String.intercalate ", " (f.aiPhraseMatches.take 2)])
  else (0, [])

/-- The punctuation category: weight 0.15. -/
def punctuationPart (f : Features) : ℚ × List String :=
  let a1 := flagStep (decide (1 ≤ f.emDashCount)) 0.5
    ("Excessive em-dashes (" ++ toString f.emDashCount ++ ")") (0, [])
  let a2 := if 2 ≤ f.colonCount then (a1.1 + 0.4, a1.2) else a1
  let a3 := if 1 ≤ f.semicolonCount then (a2.1 + 0.4, a2.2) else a2
  let a4 := flagStep (decide (3 ≤ f.quotationCount)) 0.3 "Excessive quotation marks" a3
  (min a4.1 1 * 0.15, a4.2)

/-- The structure category: weight 0.12. -/
def structurePart (f : Features) : ℚ × List String :=
  let a1 := flagStep f.hasBulletPoints 0.5 "Bullet points in tweet" (0, [])
  let a2 := flagStep f.hasNumberedList 0.5 "Numbered list format" a1
  let a3 := flagStep f.isLongThread 0.6 "Long multi-paragraph thread format" a2
  let a4 := flagStep f.hasCitations 0.7 "Contains legal citations" a3
  let a5 := flagStep f.hasLegalJargon 0.6 "Heavy legal/formal jargon" a4
  let a6 := flagStep f.hasMixedFormalEmoji 0.7
    "Formal text with emoji ending (bot pattern)" a5
  let a7 := flagStep f.hasMultipleSources 0.8 "Multiple source citations (AI pattern)" a6
  let a8 := flagStep f.hasBalancedCommentary 0.7
    "Artificial both-sides balanced commentary" a7
  let a9 := flagStep f.hasConversationalHook 0.6
    "Question hook asking for engagement" a8
  (min a9.1 1 * 0.12, a9.2)

/-- The spam category: weight 0.15. -/
def spamPart (f : Features) : ℚ × List String :=
  let a1 := flagStep (decide (3 < f.hashtagCount)) 0.5
    ("Excessive hashtags (" ++ toString f.hashtagCount ++ ")") (0, [])
  let a2 := flagStep (decide (2 < f.mentionCount)) 0.5
    ("Excessive mentions (" ++ toString f.mentionCount ++ ")") a1
  let a3 := flagStep f.hasExcessiveEmojis 0.6
    ("Excessive emojis detected (" ++ toString f.emojiCount ++ " emojis)") a2
  let a4 := flagStep f.hasGenericResponse 0.6 "Generic/bot-like response" a3
  (min a4.1 1 * 0.15, a4.2)

/-- The bot/spam category: weight 0.35. -/
def botSpamPart (f : Features) : ℚ × List String :=
  let a1 := flagStep f.hasCryptoSpam 0.6 "Crypto/financial spam detected" (0, [])
  let a2 := flagStep f.hasAdultContentPromo 0.7 "Adult content promotion detected" a1
  let a3 := flagStep f.hasPromotionalContent 0.5 "Promotional/engagement bait" a2
  let a4 := flagStep (decide (2 ≤ f.linkCount)) 0.3
    ("Multiple links (" ++ toString f.linkCount ++ ")") a3
  let a5 := flagStep f.hasSuspiciousLinks 0.4 "Suspicious link patterns" a4
  (min a5.1 1 * 0.35, a5.2)

/-- The stylometric category: weight 0.18. -/
def stylometricPart (f : Features) : ℚ × List String :=
  let a1 := flagStep (decide (f.vocabularyDiversity < 0.75)) 0.5
    "Low vocabulary diversity" (0, [])
  let a2 := flagStep (decide ((0.5 : ℚ) < f.formalityScore)) 0.5
    "High formality score" a1
  (min a2.1 1 * 0.18, a2.2)

/-- The metadata category: weight 0.10. -/
def metadataPart (f : Features) : ℚ × List String :=
  let a1 := flagStep f.isNewAccount 0.4 "New account" (0, [])
  let a2 := flagStep f.hasSuspiciousName 0.6 "Suspicious username pattern" a1
  let a3 := flagStep f.hasAffiliateBadge 0.7 "Account has affiliate badge" a2
  let a4 := flagStep f.hasEmojiUsername 0.5 "Emoji-heavy username" a3
  (min a4.1 1 * 0.10, a4.2)

/-- The flat low-effort additions (+0.6 and +0.7, not weight-scaled). -/
def lowEffortPart (f : Features) : ℚ × List String :=
  flagStep f.isShallowComment 0.7 "Shallow engagement-bait comment"
    (flagStep f.isVeryShortTweet 0.6 "Very short low-effort tweet" (0, []))

/-- The flat duplicate-content addition (+0.8, not weight-scaled). -/
def duplicatePart (f : Features) : ℚ × List String :=
  flagStep f.isDuplicateContent 0.8 "Duplicate/copied content detected" (0, [])

structure ScoreResult where
  confidence : ℚ
  reasons : List String

/-- `calculateAIScore(features)`: the categories in source order, each
contributing its (clamped, weighted) sub-score and its reasons; the flat
low-effort and duplicate additions last; confidence clamped to 1 and
reasons truncated to the first five. -/
def calculateAIScore (f : Features) : ScoreResult :=
  let parts := [aiWordPart f, aiPhrasePart f, punctuationPart f, structurePart f,
                spamPart f, botSpamPart f, stylometricPart f, metadataPart f,
                lowEffortPart f, duplicatePart f]
  { confidence := min (parts.foldl (fun a p => a + p.1) 0) 1
    reasons := (parts.foldl (fun a p => a ++ p.2) []).take 5 }

/-! ### Detector facade -/

/-- `this.stats`. -/
structure Stats where
  tweetsAnalyzed : Nat := 0
  aiDetected : Nat := 0
  confidenceSum : ℚ := 0

/-- The mutable state of an `AIDetector` instance (the loaded pattern
configuration is passed separately and never mutated). -/
structure DetectorState where
  stats : Stats := {}
  recentTweets : List (String × String) := []

/-- The `features` field of an analysis result: the known-bot
short-circuit returns the literal `{ isKnownAIBot: true }` instead of a
feature vector. -/
inductive ResultFeatures where
  | knownAIBot
  | full (f : Features)

structure AnalyzeResult where
  isAI : Bool
  confidence : ℚ
  reasons : List String
  features : ResultFeatures

/-- `this.knownAIBots`. -/
def knownAIBots : List String :=
  ["grok", "chatgpt", "claude", "gemini", "copilot", "bard", "metaai",
   "perplexity_ai", "anthropic", "openai"]

/-- `(metadata.username || '').toLowerCase().replace(/[@\s]/g, '')`. -/
def normalizeUsername (u : String) : String :=
  String.mk ((lowerStr u).data.filter (fun c => !(c == '@' || jsIsWs c)))

/-- The known-bot membership test of `analyze`:
`this.knownAIBots.some(bot => username.includes(bot) || bot.includes(username))`. -/
def isKnownBotName (username : String) : Bool :=
  knownAIBots.any (fun bot => jsIncludes username bot || jsIncludes bot username)

/-- The complete guard of the short-circuit: `metadata.username` truthy and
the normalized name passing the membership test. -/
def botGuard (u : String) : Bool := u != "" && isKnownBotName (normalizeUsername u)

/-- The generic path of `analyze` (feature extraction, scoring, the
any-signal `isAI` policy, and the statistics update). -/
def analyzePipeline (cfg : PatternConfig) (st : DetectorState) (text : String)
    (md : Metadata) : AnalyzeResult × DetectorState :=
  let fr := extractFeatures cfg text md st.recentTweets
  let score := calculateAIScore fr.1
  let isAI := decide (0 < score.reasons.length) || decide (0 < score.confidence)
  ({ isAI := isAI
     confidence := score.confidence
     reasons := score.reasons
     features := .full fr.1 },
   { stats :=
       { tweetsAnalyzed := st.stats.tweetsAnalyzed + 1
         aiDetected := st.stats.aiDetected + (if isAI then 1 else 0)
         confidenceSum := st.stats.confidenceSum + (if isAI then score.confidence else 0) }
     recentTweets := fr.2 })

/-- `analyze(text, metadata)`: the known-bot short-circuit, else the
generic pipeline.  The pattern configuration is the loaded store (see the
pattern-store comment). -/
def analyze (cfg : PatternConfig) (st : DetectorState) (text : String)
    (md : Metadata) : AnalyzeResult × DetectorState :=
  if md.username != "" then
    if isKnownBotName (normalizeUsername md.username) then
      ({ isAI := true
         confidence := 1.0
         reasons := ["Official AI bot account"]
         features := .knownAIBot },
       { stats :=
           { tweetsAnalyzed := st.stats.tweetsAnalyzed + 1
             aiDetected := st.stats.aiDetected + 1
             confidenceSum := st.stats.confidenceSum + 1.0 }
         recentTweets := st.recentTweets })
    else analyzePipeline cfg st text md
  else analyzePipeline cfg st text md

/-- The `features.isDuplicateContent` field of an analysis result, when the
generic pipeline ran. -/
def dupFlag (r : AnalyzeResult) : Option Bool :=
  match r.features with
  | .full f => some f.isDuplicateContent
  | .knownAIBot => none

/-- Metadata carrying only a username. -/
def mdOf (u : String) : Metadata := { username := u }

/-- `getStats()`: the counters plus derived `avgConfidence` and
`detectionRate`. -/
structure StatsView where
  tweetsAnalyzed : Nat
  aiDetected : Nat
  confidenceSum : ℚ
  avgConfidence : ℚ
  detectionRate : ℚ

/-- `getStats()`. -/
def getStats (st : DetectorState) : StatsView :=
  { tweetsAnalyzed := st.stats.tweetsAnalyzed
    aiDetected := st.stats.aiDetected
    confidenceSum := st.stats.confidenceSum
    avgConfidence :=
      if 0 < st.stats.aiDetected then
        st.stats.confidenceSum / (st.stats.aiDetected : ℚ)
      else 0
    detectionRate :=
      if 0 < st.stats.tweetsAnalyzed then
        (st.stats.aiDetected : ℚ) / (st.stats.tweetsAnalyzed : ℚ)
      else 0 }

/-- `resetStats()`: zero the counters, leaving `recentTweets` alone. -/
def resetStats (st : DetectorState) : DetectorState :=
  { st with stats := { tweetsAnalyzed := 0, aiDetected := 0, confidenceSum := 0 } }

/-! ### Concrete instances used by the verification -/

/-- The duplicate-detection text of the specification scenario. -/
def tDup : String := "This is absolutely incredible news today"

/-- The `i`-th distinct cache key: `i + 1` copies of `a` (distinct
normalized texts of pairwise different lengths). -/
def badKey (i : Nat) : String := String.mk (List.replicate (i + 1) 'a')

/-- 501 posts whose normalized texts are pairwise distinct, the first
normalizing to the empty string. -/
def badPosts : List (String × String) :=
  ("!!!", "u0") :: (List.range 500).map (fun i => (badKey i, "u"))

/-- A full tracker: 500 entries with distinct nonempty normalized keys. -/
def rtFull : List (String × String) :=
  (List.range 500).map (fun i => (badKey i, "u"))

/-- The tracker after recording the first 500 of `badPosts`. -/
def cacheAfter500 : List (String × String) :=
  ("", "u0") :: (List.range 499).map (fun i => (badKey i, "u"))

/-! ## Theorems -/

section Verification

/-! ### Scoring bounds -/

/-- A `flagStep` preserves nonnegativity of the running sub-score. -/
theorem flagStep_fst_nonneg {inc : ℚ} {acc : ℚ × List String} (b : Bool) (r : String)
    (hinc : 0 ≤ inc) (hacc : 0 ≤ acc.1) : 0 ≤ (flagStep b inc r acc).1 := by
  unfold flagStep
  split
  · exact add_nonneg hacc hinc
  · exact hacc

/-- A bare `score += inc` step (no reason pushed) preserves
nonnegativity. -/
theorem ite_add_fst_nonneg {c : Prop} [Decidable c] {acc : ℚ × List String} {inc : ℚ}
    (hinc : 0 ≤ inc) (hacc : 0 ≤ acc.1) :
    0 ≤ (if c then (acc.1 + inc, acc.2) else acc).1 := by
  split
  · exact add_nonneg hacc hinc
  · exact hacc

/-- Clamping a nonnegative sub-score to 1 and weighting keeps it
nonnegative. -/
theorem min_one_mul_nonneg {a w : ℚ} (ha : 0 ≤ a) (hw : 0 ≤ w) :
    0 ≤ min a 1 * w :=
  mul_nonneg (le_min ha (by norm_num)) hw

theorem aiWordPart_nonneg (f : Features) : 0 ≤ (aiWordPart f).1 := by
  have h : (0 : ℚ) ≤ (f.aiWordCount : ℚ) / (max (f.totalWords : ℚ) 1) :=
    div_nonneg (by positivity) (by positivity)
  simp only [aiWordPart]
  split
  · exact min_one_mul_nonneg (mul_nonneg h (by norm_num)) (by norm_num)
  · norm_num

theorem aiPhrasePart_nonneg (f : Features) : 0 ≤ (aiPhrasePart f).1 := by
  simp only [aiPhrasePart]
  split
  · exact min_one_mul_nonneg (mul_nonneg (by positivity) (by norm_num)) (by norm_num)
  · norm_num

theorem punctuationPart_nonneg (f : Features) : 0 ≤ (punctuationPart f).1 := by
  simp only [punctuationPart]
  refine min_one_mul_nonneg ?_ (by norm_num)
  refine flagStep_fst_nonneg _ _ (by norm_num) ?_
  refine ite_add_fst_nonneg (by norm_num) ?_
  refine ite_add_fst_nonneg (by norm_num) ?_
  refine flagStep_fst_nonneg _ _ (by norm_num) ?_
  norm_num

theorem structurePart_nonneg (f : Features) : 0 ≤ (structurePart f).1 := by
  simp only [structurePart]
  refine min_one_mul_nonneg ?_ (by norm_num)
  repeat refine flagStep_fst_nonneg _ _ (by norm_num) ?_
  norm_num

theorem spamPart_nonneg (f : Features) : 0 ≤ (spamPart f).1 := by
  simp only [spamPart]
  refine min_one_mul_nonneg ?_ (by norm_num)
  repeat refine flagStep_fst_nonneg _ _ (by norm_num) ?_
  norm_num

theorem botSpamPart_nonneg (f : Features) : 0 ≤ (botSpamPart f).1 := by
  simp only [botSpamPart]
  refine min_one_mul_nonneg ?_ (by norm_num)
  repeat refine flagStep_fst_nonneg _ _ (by norm_num) ?_
  norm_num

theorem stylometricPart_nonneg (f : Features) : 0 ≤ (stylometricPart f).1 := by
  simp only [stylometricPart]
  refine min_one_mul_nonneg ?_ (by norm_num)
  repeat refine flagStep_fst_nonneg _ _ (by norm_num) ?_
  norm_num

theorem metadataPart_nonneg (f : Features) : 0 ≤ (metadataPart f).1 := by
  simp only [metadataPart]
  refine min_one_mul_nonneg ?_ (by norm_num)
  repeat refine flagStep_fst_nonneg _ _ (by norm_num) ?_
  norm_num

theorem lowEffortPart_nonneg (f : Features) : 0 ≤ (lowEffortPart f).1 := by
  simp only [lowEffortPart]
  repeat refine flagStep_fst_nonneg _ _ (by norm_num) ?_
  norm_num

theorem duplicatePart_nonneg (f : Features) : 0 ≤ (duplicatePart f).1 := by
  simp only [duplicatePart]
  refine flagStep_fst_nonneg _ _ (by norm_num) ?_
  norm_num

/-- The total score is a sum of nonnegative category contributions. -/
theorem calculateAIScore_total_nonneg (f : Features) :
    0 ≤ [aiWordPart f, aiPhrasePart f, punctuationPart f, structurePart f,
         spamPart f, botSpamPart f, stylometricPart f, metadataPart f,
         lowEffortPart f, duplicatePart f].foldl (fun a p => a + p.1) 0 := by
  simp only [List.foldl_cons, List.foldl_nil]
  have h1 := aiWordPart_nonneg f
  have h2 := aiPhrasePart_nonneg f
  have h3 := punctuationPart_nonneg f
  have h4 := structurePart_nonneg f
  have h5 := spamPart_nonneg f
  have h6 := botSpamPart_nonneg f
  have h7 := stylometricPart_nonneg f
  have h8 := metadataPart_nonneg f
  have h9 := lowEffortPart_nonneg f
  have h10 := duplicatePart_nonneg f
  linarith

theorem calculateAIScore_confidence_nonneg (f : Features) :
    0 ≤ (calculateAIScore f).confidence := by
  unfold calculateAIScore
  exact le_min (calculateAIScore_total_nonneg f) (by norm_num)

theorem calculateAIScore_confidence_le_one (f : Features) :
    (calculateAIScore f).confidence ≤ 1 := by
  unfold calculateAIScore
  exact min_le_right _ _

theorem calculateAIScore_reasons_le_five (f : Features) :
    (calculateAIScore f).reasons.length ≤ 5 := by
  unfold calculateAIScore
  simp [List.length_take]

/-- C1.  For every feature vector, `calculateAIScore` returns a confidence
in `[0, 1]` and at most five reasons; consequently the confidence of every
`analyze` result (the known-bot short-circuit included) lies in `[0, 1]`
with at most five reasons. -/
theorem score_and_analyze_bounds (f : Features) (cfg : PatternConfig)
    (st : DetectorState) (text : String) (md : Metadata) :
    (0 ≤ (calculateAIScore f).confidence ∧ (calculateAIScore f).confidence ≤ 1 ∧
     (calculateAIScore f).reasons.length ≤ 5) ∧
    (0 ≤ (analyze cfg st text md).1.confidence ∧
     (analyze cfg st text md).1.confidence ≤ 1 ∧
     (analyze cfg st text md).1.reasons.length ≤ 5) := by
  refine ⟨⟨calculateAIScore_confidence_nonneg f, calculateAIScore_confidence_le_one f,
    calculateAIScore_reasons_le_five f⟩, ?_⟩
  unfold analyze
  split
  · split
    · refine ⟨by norm_num, by norm_num, by norm_num⟩
    · unfold analyzePipeline
      exact ⟨calculateAIScore_confidence_nonneg _, calculateAIScore_confidence_le_one _,
        calculateAIScore_reasons_le_five _⟩
  · unfold analyzePipeline
    exact ⟨calculateAIScore_confidence_nonneg _, calculateAIScore_confidence_le_one _,
      calculateAIScore_reasons_le_five _⟩

/-! ### The known-bot short-circuit -/

/-- C2.  When the username normalizes to `"grok"`, `analyze`
short-circuits: confidence exactly 1.0, the single fixed reason, `isAI`
true, the statistics bumped, and the duplicate tracker untouched (the
feature extractor and scorer never run; the `features` field is the
literal known-bot marker). -/
theorem grok_short_circuit (cfg : PatternConfig) (st : DetectorState) (text : String)
    (md : Metadata) (h : normalizeUsername md.username = "grok") :
    analyze cfg st text md =
      ({ isAI := true
         confidence := 1.0
         reasons := ["Official AI bot account"]
         features := .knownAIBot },
       { stats :=
           { tweetsAnalyzed := st.stats.tweetsAnalyzed + 1
             aiDetected := st.stats.aiDetected + 1
             confidenceSum := st.stats.confidenceSum + 1.0 }
         recentTweets := st.recentTweets }) := by
  have hne : md.username ≠ "" := by
    intro he
    rw [he] at h
    exact absurd h (by decide)
  have hbot : isKnownBotName (normalizeUsername md.username) = true := by
    rw [h]; decide
  unfold analyze
  rw [if_pos (by simp [bne_iff_ne, hne]), if_pos hbot]

/-- Witness for C2 at the username `"@Grok "`. -/
theorem grok_short_circuit_witness :
    normalizeUsername "@Grok " = "grok" ∧
    (analyze getDefaultPatterns {} "some text" (mdOf "@Grok ")).1.confidence = 1 ∧
    (analyze getDefaultPatterns {} "some text" (mdOf "@Grok ")).1.reasons =
      ["Official AI bot account"] ∧
    (analyze getDefaultPatterns {} "some text" (mdOf "@Grok ")).1.isAI = true ∧
    (analyze getDefaultPatterns {} "some text" (mdOf "@Grok ")).2.recentTweets = [] := by
  have h := grok_short_circuit getDefaultPatterns {} "some text" (mdOf "@Grok ") (by decide)
  refine ⟨by decide, ?_, ?_, ?_, ?_⟩ <;> (rw [h]; try norm_num)

/-! ### The any-signal policy -/

/-- C4.  Every `analyze` result flags `isAI` exactly when the reasons list
is nonempty or the confidence is strictly positive. -/
theorem isAI_iff_signal (cfg : PatternConfig) (st : DetectorState) (text : String)
    (md : Metadata) :
    (analyze cfg st text md).1.isAI = true ↔
      ((analyze cfg st text md).1.reasons ≠ [] ∨
       0 < (analyze cfg st text md).1.confidence) := by
  unfold analyze
  split
  · split
    · exact ⟨fun _ => Or.inl (by simp), fun _ => rfl⟩
    · dsimp only [analyzePipeline]
      simp only [Bool.or_eq_true, decide_eq_true_eq, List.length_pos]
  · dsimp only [analyzePipeline]
    simp only [Bool.or_eq_true, decide_eq_true_eq, List.length_pos]

/-! ### Statistics -/

/-- C5.  Each `analyze` call increments `tweetsAnalyzed` by exactly one,
increments `aiDetected` and adds the returned confidence to
`confidenceSum` exactly when `isAI` holds; `resetStats` zeroes the three
counters and leaves the duplicate tracker unchanged. -/
theorem stats_update (cfg : PatternConfig) (st : DetectorState) (text : String)
    (md : Metadata) :
    (analyze cfg st text md).2.stats.tweetsAnalyzed = st.stats.tweetsAnalyzed + 1 ∧
    (analyze cfg st text md).2.stats.aiDetected =
      st.stats.aiDetected + (if (analyze cfg st text md).1.isAI then 1 else 0) ∧
    (analyze cfg st text md).2.stats.confidenceSum =
      st.stats.confidenceSum +
        (if (analyze cfg st text md).1.isAI then (analyze cfg st text md).1.confidence
         else 0) ∧
    (resetStats st).stats.tweetsAnalyzed = 0 ∧
    (resetStats st).stats.aiDetected = 0 ∧
    (resetStats st).stats.confidenceSum = 0 ∧
    (resetStats st).recentTweets = st.recentTweets := by
  refine ⟨?_, ?_, ?_, rfl, rfl, rfl, rfl⟩ <;>
    (unfold analyze
     split
     · split
       · rfl
       · dsimp only [analyzePipeline]
     · dsimp only [analyzePipeline])

/-! ### The formality score -/

/-- Folding `+ c` over the list elements satisfying `p` adds `c` times the
count. -/
theorem foldl_add_const (c : ℚ) (p : String → Bool) (l : List String) (init : ℚ) :
    l.foldl (fun acc w => if p w then acc + c else acc) init =
      init + c * l.countP p := by
  induction l generalizing init with
  | nil => simp
  | cons a l ih =>
    by_cases hp : p a
    · simp only [List.foldl_cons, hp, if_true, List.countP_cons, ih, hp]
      push_cast
      ring
    · simp only [List.foldl_cons, hp, if_false, List.countP_cons, ih, hp]
      push_cast
      ring

/-- Folding `- c` over the list elements satisfying `p` subtracts `c`
times the count. -/
theorem foldl_sub_const (c : ℚ) (p : String → Bool) (l : List String) (init : ℚ) :
    l.foldl (fun acc w => if p w then acc - c else acc) init =
      init - c * l.countP p := by
  induction l generalizing init with
  | nil => simp
  | cons a l ih =>
    by_cases hp : p a
    · simp only [List.foldl_cons, hp, if_true, List.countP_cons, ih, hp]
      push_cast
      ring
    · simp only [List.foldl_cons, hp, if_false, List.countP_cons, ih, hp]
      push_cast
      ring

/-- C9.  `getFormalityScore` equals the clamp to `[0, 1]` of
`0.5 + 0.15·(formal connectives found) − 0.1·(contractions found) −
0.15·(slang tokens found)`, each fixed list item counted once however
often it occurs, the lists having 6, 5 and 6 entries. -/
theorem formality_formula (text : String) :
    getFormalityScore text =
      max 0 (min 1 (0.5 +
        0.15 * (formalWords.countP (fun w => jsIncludes (lowerStr text) w) : ℚ) -
        0.1 * (contractions.countP (fun w => jsIncludes (lowerStr text) w) : ℚ) -
        0.15 * (slangWords.countP (fun w => jsIncludes (lowerStr text) w) : ℚ))) ∧
    formalWords.length = 6 ∧ contractions.length = 5 ∧ slangWords.length = 6 := by
  refine ⟨?_, rfl, rfl, rfl⟩
  simp only [getFormalityScore]
  rw [foldl_add_const, foldl_sub_const, foldl_sub_const]
  congr 1
  congr 1
  ring

/-! ### The substring-symmetric bot test -/

/-- C10.  Any nonempty username whose normalized form is a substring of
some known bot handle (the empty normalization of `"@"` or whitespace
included) triggers the known-bot short-circuit, because the membership
test also asks whether the bot handle contains the username. -/
theorem substring_username_short_circuit (cfg : PatternConfig) (st : DetectorState)
    (text u : String) (hne : u ≠ "")
    (hsub : ∃ bot ∈ knownAIBots, jsIncludes bot (normalizeUsername u) = true) :
    (analyze cfg st text (mdOf u)).1 =
      { isAI := true
        confidence := 1.0
        reasons := ["Official AI bot account"]
        features := .knownAIBot } ∧
    (analyze cfg st text (mdOf u)).2.recentTweets = st.recentTweets := by
  obtain ⟨bot, hmem, hinc⟩ := hsub
  have hbot : isKnownBotName (normalizeUsername u) = true := by
    unfold isKnownBotName
    refine List.any_eq_true.mpr ⟨bot, hmem, ?_⟩
    simp [hinc]
  unfold analyze
  rw [if_pos (by simp [mdOf, bne_iff_ne, hne]), if_pos (by simpa [mdOf] using hbot)]
  exact ⟨rfl, rfl⟩

/-- Witness for C10 at the username `"@"`, which normalizes to the empty
string. -/
theorem substring_username_witness :
    "@" ≠ "" ∧ normalizeUsername "@" = "" ∧
    ("grok" ∈ knownAIBots ∧ jsIncludes "grok" (normalizeUsername "@") = true) ∧
    (analyze getDefaultPatterns {} "hello" (mdOf "@")).1.confidence = 1 ∧
    (analyze getDefaultPatterns {} "hello" (mdOf "@")).1.isAI = true := by
  have h := (substring_username_short_circuit getDefaultPatterns {} "hello" "@" (by decide)
    ⟨"grok", by decide, by decide⟩).1
  refine ⟨by decide, by decide, ⟨by decide, by decide⟩, ?_, ?_⟩ <;> (rw [h]; try norm_num)

/-! ### Duplicate-tracker lemmas -/

/-- A false bot guard routes `analyze` to the generic pipeline. -/
theorem analyze_not_bot (cfg : PatternConfig) (st : DetectorState) (text : String)
    (md : Metadata) (h : botGuard md.username = false) :
    analyze cfg st text md = analyzePipeline cfg st text md := by
  unfold analyze
  unfold botGuard at h
  cases hu : (md.username != "") with
  | false => simp [hu]
  | true =>
    rw [hu, Bool.true_and] at h
    simp [hu, h]

/-- `Map.set` leaves the new binding in the map. -/
theorem mapSet_mem (k v : String) : ∀ m, (k, v) ∈ mapSet k v m
  | [] => by simp [mapSet]
  | e :: m => by
    unfold mapSet
    split
    · exact List.mem_cons_self _ _
    · exact List.mem_cons_of_mem _ (mapSet_mem k v m)

/-- `Map.set` grows the map by at most one entry. -/
theorem mapSet_length_le (k v : String) : ∀ m, (mapSet k v m).length ≤ m.length + 1
  | [] => by simp [mapSet]
  | e :: m => by
    unfold mapSet
    split
    · simp
    · simpa using mapSet_length_le k v m

/-- An entry's key is among the map's keys. -/
theorem mem_keysOf_of_mem {e : String × String} {m : List (String × String)}
    (h : e ∈ m) : e.1 ∈ keysOf m :=
  List.mem_map_of_mem Prod.fst h

/-- `Map.set` on a present key preserves the size. -/
theorem mapSet_length_of_mem (k v : String) :
    ∀ m, k ∈ keysOf m → (mapSet k v m).length = m.length
  | [], h => absurd h (by simp [keysOf])
  | e :: m, h => by
    unfold mapSet
    split
    · simp
    · rename_i hne
      have hk : k ∈ keysOf m := by
        have h2 : k = e.1 ∨ k ∈ keysOf m := by simpa [keysOf] using h
        rcases h2 with h1 | h1
        · exact absurd (by simp [h1] : (e.1 == k) = true) hne
        · exact h1
      simpa using mapSet_length_of_mem k v m hk

/-- Below the capacity threshold, `addToCache` is a plain `Map.set`. -/
theorem addToCache_of_le (text username : String) (rt : List (String × String))
    (h : (mapSet (normalizeText text) username rt).length ≤ maxCacheSize) :
    addToCache text username rt = mapSet (normalizeText text) username rt := by
  unfold addToCache
  rw [if_neg (by omega)]

/-- A cached exact normalized match from a different author makes
`checkDuplicateContent` fire. -/
theorem checkDuplicateContent_exact {rt : List (String × String)}
    (text username : String) (u : String)
    (hm : (normalizeText text, u) ∈ rt) (hu : u ≠ username) :
    checkDuplicateContent rt text username = true := by
  unfold checkDuplicateContent
  refine List.any_eq_true.mpr ⟨(normalizeText text, u), hm, ?_⟩
  simp [bne_iff_ne, hu]

/-- A cached structurally similar entry from a different author makes
`checkDuplicateContent` fire. -/
theorem checkDuplicateContent_structural {rt : List (String × String)}
    (text username : String) (e : String × String)
    (hm : e ∈ rt) (hu : e.2 ≠ username)
    (hs : checkStructuralSimilarity (normalizeText text) e.1 = true) :
    checkDuplicateContent rt text username = true := by
  unfold checkDuplicateContent
  refine List.any_eq_true.mpr ⟨e, hm, ?_⟩
  simp [bne_iff_ne, hu, hs]

/-- The duplicate flag of a pipeline run is the tracker check against the
pre-call state. -/
theorem analyzePipeline_dupFlag (cfg : PatternConfig) (st : DetectorState)
    (text : String) (md : Metadata) :
    dupFlag (analyzePipeline cfg st text md).1 =
      some (checkDuplicateContent st.recentTweets text md.username) := by
  dsimp only [analyzePipeline, dupFlag, extractFeatures]

/-- The tracker state after a pipeline run is the `addToCache` insert. -/
theorem analyzePipeline_recentTweets (cfg : PatternConfig) (st : DetectorState)
    (text : String) (md : Metadata) :
    (analyzePipeline cfg st text md).2.recentTweets =
      addToCache text md.username st.recentTweets := by
  dsimp only [analyzePipeline, extractFeatures]

/-! ### C3: the duplicate flag across authors -/

/-- C3, amended.  Analyzing the same text from `a`, then from `b ≠ a`,
then from `a` again (no author hitting the known-bot list, tracker not at
capacity): `b`'s analysis flags `isDuplicateContent`, and — contrary to
the original claim — `a`'s second analysis flags it TOO, because
recording `b`'s copy overwrote the cached author for that normalized
text. -/
theorem duplicate_author_overwrite (cfg : PatternConfig) (st : DetectorState)
    (t a b : String) (hab : a ≠ b) (ha : botGuard a = false) (hb : botGuard b = false)
    (hlen : st.recentTweets.length ≤ 499) :
    dupFlag (analyze cfg ((analyze cfg st t (mdOf a)).2) t (mdOf b)).1 = some true ∧
    dupFlag (analyze cfg
      (analyze cfg ((analyze cfg st t (mdOf a)).2) t (mdOf b)).2 t (mdOf a)).1 =
      some true := by
  have hcap : (mapSet (normalizeText t) a st.recentTweets).length ≤ maxCacheSize := by
    have := mapSet_length_le (normalizeText t) a st.recentTweets
    unfold maxCacheSize
    omega
  have hrt1 : (analyze cfg st t (mdOf a)).2.recentTweets =
      mapSet (normalizeText t) a st.recentTweets := by
    rw [analyze_not_bot cfg st t (mdOf a) ha, analyzePipeline_recentTweets]
    exact addToCache_of_le t a st.recentTweets hcap
  have hflag2 : dupFlag (analyze cfg ((analyze cfg st t (mdOf a)).2) t (mdOf b)).1 =
      some true := by
    rw [analyze_not_bot cfg _ t (mdOf b) hb, analyzePipeline_dupFlag, hrt1]
    exact congrArg some
      (checkDuplicateContent_exact t b a (mapSet_mem _ _ _) hab)
  have hrt2 : (analyze cfg ((analyze cfg st t (mdOf a)).2) t (mdOf b)).2.recentTweets =
      mapSet (normalizeText t) b (mapSet (normalizeText t) a st.recentTweets) := by
    rw [analyze_not_bot cfg _ t (mdOf b) hb, analyzePipeline_recentTweets, hrt1]
    apply addToCache_of_le
    rw [mapSet_length_of_mem _ _ _
      (mem_keysOf_of_mem (mapSet_mem (normalizeText t) a st.recentTweets))]
    exact hcap
  refine ⟨hflag2, ?_⟩
  rw [analyze_not_bot cfg _ t (mdOf a) ha, analyzePipeline_dupFlag, hrt2]
  exact congrArg some
    (checkDuplicateContent_exact t a b (mapSet_mem _ _ _) (Ne.symm hab))

/-- Witness for the amended C3 at the specification's scenario. -/
theorem duplicate_author_overwrite_witness :
    "alice" ≠ "bob" ∧ botGuard "alice" = false ∧ botGuard "bob" = false ∧
    ({} : DetectorState).recentTweets.length ≤ 499 ∧
    dupFlag (analyze getDefaultPatterns
      ((analyze getDefaultPatterns {} tDup (mdOf "alice")).2) tDup (mdOf "bob")).1 =
      some true ∧
    dupFlag (analyze getDefaultPatterns
      (analyze getDefaultPatterns
        ((analyze getDefaultPatterns {} tDup (mdOf "alice")).2) tDup (mdOf "bob")).2
      tDup (mdOf "alice")).1 = some true := by
  have h := duplicate_author_overwrite getDefaultPatterns {} tDup "alice" "bob"
    (by decide) (by decide) (by decide) (by decide)
  exact ⟨by decide, by decide, by decide, by decide, h.1, h.2⟩

/-- Counterexample to C3 as stated: in the alice–bob–alice scenario,
alice's second analysis carries `isDuplicateContent = true`, not the
claimed `false`. -/
theorem duplicate_claim_counterexample :
    dupFlag (analyze getDefaultPatterns
      ((analyze getDefaultPatterns {} tDup (mdOf "alice")).2) tDup (mdOf "bob")).1 =
      some true ∧
    dupFlag (analyze getDefaultPatterns
      (analyze getDefaultPatterns
        ((analyze getDefaultPatterns {} tDup (mdOf "alice")).2) tDup (mdOf "bob")).2
      tDup (mdOf "alice")).1 = some true := by
  constructor <;> decide

/-! ### C7: structural similarity -/

/-- C7, amended.  For a probe text and a cached text from a different
author, WHEN THE WORD COUNTS DIFFER BY AT MOST 3 (the gate the original
claim omits), `checkDuplicateContent` flags a duplicate under structural
similarity: both texts of at most 8 words sharing at least 4 words
(counted over the probe's words), or — when not both are short — at least
50% of the probe's adjacent word bigrams occurring verbatim in the cached
text. -/
theorem structural_similarity_flags (rt : List (String × String))
    (t author : String) (e : String × String) (hm : e ∈ rt) (hu : e.2 ≠ author)
    (hgap : (((splitSpace (normalizeText t).data).length : ℤ) -
             ((splitSpace e.1.data).length : ℤ)).natAbs ≤ 3)
    (hcase :
      ((splitSpace (normalizeText t).data).length ≤ 8 ∧
       (splitSpace e.1.data).length ≤ 8 ∧
       4 ≤ ((splitSpace (normalizeText t).data).filter
             (fun w => (splitSpace e.1.data).contains w)).length) ∨
      (¬((splitSpace (normalizeText t).data).length ≤ 8 ∧
         (splitSpace e.1.data).length ≤ 8) ∧
       (((splitSpace (normalizeText t).data).length : ℚ) - 1) * (1/2) ≤
         (bigramMatchCount e.1.data (splitSpace (normalizeText t).data) : ℚ))) :
    checkDuplicateContent rt t author = true := by
  refine checkDuplicateContent_structural t author e hm hu ?_
  simp only [checkStructuralSimilarity]
  rw [if_neg (by omega)]
  rcases hcase with ⟨h1, h2, h3⟩ | ⟨hn, hbig⟩
  · rw [if_pos ⟨h1, h2⟩]
    exact decide_eq_true h3
  · rw [if_neg hn]
    exact decide_eq_true hbig

/-- Witness for the amended C7: probe `"a b c d x"` against cached
`"a b c d e"` by another author (5 words each, 4 shared). -/
theorem structural_similarity_flags_witness :
    ("a b c d e", "bob") ∈ [("a b c d e", "bob")] ∧ "bob" ≠ "alice" ∧
    checkDuplicateContent [("a b c d e", "bob")] "a b c d x" "alice" = true := by
  refine ⟨by decide, by decide, ?_⟩
  exact structural_similarity_flags [("a b c d e", "bob")] "a b c d x" "alice"
    ("a b c d e", "bob") (by decide) (by decide) (by decide)
    (Or.inl ⟨by decide, by decide, by decide⟩)

attribute [local semireducible] Rat.add Rat.mul Rat.inv Rat.sub Rat.ofScientific in
/-- Counterexample to C7 as stated: probe `"a b c d e f g h"` (8 words)
and cached `"a b c d"` (4 words) from a different author are both at most
8 words and share 4 words, yet `checkDuplicateContent` does not flag —
the word counts differ by more than 3. -/
theorem structural_similarity_counterexample :
    (splitSpace (normalizeText "a b c d e f g h").data).length ≤ 8 ∧
    (splitSpace ("a b c d" : String).data).length ≤ 8 ∧
    4 ≤ ((splitSpace (normalizeText "a b c d e f g h").data).filter
          (fun w => (splitSpace ("a b c d" : String).data).contains w)).length ∧
    "bob" ≠ "alice" ∧
    checkDuplicateContent [("a b c d", "bob")] "a b c d e f g h" "alice" = false := by
  refine ⟨by decide, by decide, by decide, by decide, by decide⟩

/-! ### C8: robustness on degenerate text -/

/-- A nonempty current run yields a nonempty piece list. -/
theorem piecesOfAux_ne_nil (p : Char → Bool) :
    ∀ (cs acc : List Char), acc.isEmpty = false → piecesOfAux p acc cs ≠ []
  | [], acc, ha => by
    unfold piecesOfAux
    rw [ha]
    simp
  | c :: cs, acc, ha => by
    unfold piecesOfAux
    by_cases hc : p c
    · rw [if_pos hc, if_neg (by simp_all)]
      simp
    · rw [if_neg hc]
      exact piecesOfAux_ne_nil p cs (c :: acc) rfl

/-- No pieces means every character is a separator. -/
theorem all_of_piecesOf_eq_nil (p : Char → Bool) :
    ∀ cs : List Char, piecesOf p cs = [] → cs.all p = true
  | [], _ => rfl
  | c :: cs, h => by
    unfold piecesOf piecesOfAux at h
    by_cases hc : p c
    · rw [if_pos hc, if_pos (by simp)] at h
      simp only [List.all_cons, hc, Bool.true_and]
      exact all_of_piecesOf_eq_nil p cs h
    · rw [if_neg hc] at h
      exact absurd h (piecesOfAux_ne_nil p cs [c] rfl)

/-- All separators means no pieces. -/
theorem piecesOf_eq_nil_of_all (p : Char → Bool) :
    ∀ cs : List Char, cs.all p = true → piecesOf p cs = []
  | [], _ => rfl
  | c :: cs, h => by
    have hc : p c = true := by simp_all
    have ht : cs.all p = true := by simp_all
    unfold piecesOf piecesOfAux
    rw [if_pos hc, if_pos (by simp)]
    exact piecesOf_eq_nil_of_all p cs ht

/-- A predicate failing on every element leaves `dropWhile` untouched. -/
theorem dropWhile_no (p : Char → Bool) :
    ∀ cs : List Char, (∀ c ∈ cs, p c = false) → cs.dropWhile p = cs
  | [], _ => rfl
  | c :: cs, h => by
    rw [List.dropWhile_cons, if_neg (by simp [h c (List.mem_cons_self c cs)])]

/-- A predicate holding on every element makes `dropWhile` empty. -/
theorem dropWhile_all (p : Char → Bool) :
    ∀ cs : List Char, (∀ c ∈ cs, p c = true) → cs.dropWhile p = []
  | [], _ => rfl
  | c :: cs, h => by
    rw [List.dropWhile_cons, if_pos (by simp [h c (List.mem_cons_self c cs)])]
    exact dropWhile_all p cs (fun d hd => h d (List.mem_cons_of_mem c hd))

/-- Trimming an all-whitespace list yields the empty list. -/
theorem jsTrim_all_ws (cs : List Char) (h : ∀ c ∈ cs, jsIsWs c = true) :
    jsTrim cs = [] := by
  unfold jsTrim
  rw [dropWhile_all _ cs h]
  rfl

/-- With no separator present, the split yields at most the whole list. -/
theorem piecesOfAux_no_sep (p : Char → Bool) :
    ∀ (cs acc : List Char), (∀ c ∈ cs, p c = false) →
      piecesOfAux p acc cs =
        if (acc.reverse ++ cs).isEmpty then [] else [acc.reverse ++ cs]
  | [], acc, _ => by
    unfold piecesOfAux
    simp
  | c :: cs, acc, h => by
    unfold piecesOfAux
    rw [if_neg (by simp [h c (List.mem_cons_self c cs)])]
    rw [piecesOfAux_no_sep p cs (c :: acc) (fun d hd => h d (List.mem_cons_of_mem c hd))]
    simp

/-- Lowercasing fixes whitespace characters. -/
theorem toLower_of_ws {c : Char} (h : jsIsWs c = true) : Char.toLower c = c := by
  unfold Char.toLower
  rw [if_neg]
  intro hc
  unfold jsIsWs at h
  simp only [Bool.or_eq_true, beq_iff_eq, Bool.and_eq_true, decide_eq_true_eq] at h
  have h65 : 65 ≤ c.toNat := by
    simpa using hc.1
  have h90 : c.toNat ≤ 90 := by
    simpa using hc.2
  omega

/-- A word count of zero means the text is all whitespace. -/
theorem all_ws_of_countWords_zero {t : String} (h : countWords t = 0) :
    ∀ c ∈ t.data, jsIsWs c = true := by
  have h1 : piecesOf jsIsWs t.data = [] := List.length_eq_zero.mp h
  have h2 := all_of_piecesOf_eq_nil jsIsWs t.data h1
  exact fun c hc => List.all_eq_true.mp h2 c hc

/-- The average sentence length of an all-whitespace text is zero. -/
theorem getAvgSentenceLength_of_ws {t : String}
    (hws : ∀ c ∈ t.data, jsIsWs c = true) : getAvgSentenceLength t = 0 := by
  unfold getAvgSentenceLength
  have hnp : ∀ c ∈ t.data, sentencePunct c = false := by
    intro c hc
    have hw := hws c hc
    cases hs : sentencePunct c with
    | false => rfl
    | true =>
      exfalso
      rcases (by simpa [sentencePunct] using hs : (c = '.' ∨ c = '!') ∨ c = '?') with
        (h1 | h1) | h1 <;> (subst h1; exact absurd hw (by decide))
  have hp := piecesOfAux_no_sep sentencePunct t.data [] hnp
  rw [show piecesOf sentencePunct t.data = piecesOfAux sentencePunct [] t.data from rfl, hp]
  cases ht : t.data with
  | nil => simp
  | cons c cs =>
    rw [ht] at hws
    have htrim : jsTrim (c :: cs) = [] := jsTrim_all_ws _ hws
    simp [htrim]

/-- The vocabulary diversity of an all-whitespace text is zero. -/
theorem getVocabularyDiversity_of_ws {t : String}
    (hws : ∀ c ∈ t.data, jsIsWs c = true) : getVocabularyDiversity t = 0 := by
  unfold getVocabularyDiversity
  have hlow : ∀ c ∈ (lowerStr t).data, jsIsWs c = true := by
    intro c hc
    obtain ⟨d, hd, rfl⟩ := List.mem_map.mp hc
    rw [toLower_of_ws (hws d hd)]
    exact hws d hd
  rw [piecesOf_eq_nil_of_all jsIsWs _ (List.all_eq_true.mpr hlow)]
  simp

/-- C8, amended.  For every STRING text — empty, whitespace-only, pure
emoji or otherwise — `extractFeatures` totally returns a feature vector;
when the text has no words, the ratio-like features
(`avgSentenceLength`, `vocabularyDiversity`) and `totalWords` are zero.
The original claim's `null` case does not hold: `extractFeatures(null)`
throws a `TypeError` in `countWords` (see the counterexample). -/
theorem extract_robust (cfg : PatternConfig) (md : Metadata)
    (rt : List (String × String)) (t : String) (h0 : countWords t = 0) :
    extractFeaturesJS cfg (some t) md rt = Except.ok (extractFeatures cfg t md rt) ∧
    (extractFeatures cfg t md rt).1.totalWords = 0 ∧
    (extractFeatures cfg t md rt).1.avgSentenceLength = 0 ∧
    (extractFeatures cfg t md rt).1.vocabularyDiversity = 0 := by
  have hws := all_ws_of_countWords_zero h0
  refine ⟨rfl, ?_, ?_, ?_⟩
  · dsimp only [extractFeatures]
    exact h0
  · dsimp only [extractFeatures]
    exact getAvgSentenceLength_of_ws hws
  · dsimp only [extractFeatures]
    exact getVocabularyDiversity_of_ws hws

/-- Witness for the amended C8 at the whitespace-only text `" "`. -/
theorem extract_robust_witness :
    countWords " " = 0 ∧
    extractFeaturesJS getDefaultPatterns (some " ") (mdOf "") [] =
      Except.ok (extractFeatures getDefaultPatterns " " (mdOf "") []) ∧
    (extractFeatures getDefaultPatterns " " (mdOf "") []).1.totalWords = 0 ∧
    (extractFeatures getDefaultPatterns " " (mdOf "") []).1.avgSentenceLength = 0 ∧
    (extractFeatures getDefaultPatterns " " (mdOf "") []).1.vocabularyDiversity = 0 := by
  have h := extract_robust getDefaultPatterns (mdOf "") [] " " (by decide)
  exact ⟨by decide, h.1, h.2.1, h.2.2.1, h.2.2.2⟩

/-- Counterexample to C8 as stated: called on `null` text, the JavaScript
`extractFeatures` throws (its first statement evaluates
`null.split(/\s+/)`), so it does not return a feature vector for every
input including `null`. -/
theorem extract_null_counterexample :
    extractFeaturesJS getDefaultPatterns none (mdOf "") [] =
      Except.error "TypeError: text.split is not a function on null" := rfl

/-! ### C6: cache eviction -/

/-- Keys of a cons. -/
theorem keysOf_cons (e : String × String) (m : List (String × String)) :
    keysOf (e :: m) = e.1 :: keysOf m := rfl

/-- Keys of an append. -/
theorem keysOf_append (a b : List (String × String)) :
    keysOf (a ++ b) = keysOf a ++ keysOf b := by
  simp [keysOf]

/-- `Map.set` with a fresh key appends at the end of insertion order. -/
theorem mapSet_of_not_mem (k v : String) :
    ∀ m, k ∉ keysOf m → mapSet k v m = m ++ [(k, v)]
  | [], _ => rfl
  | e :: m, h => by
    rw [keysOf_cons] at h
    have hne : ¬((e.1 == k) = true) := by
      intro hb
      exact h (by rw [eq_of_beq hb]; exact List.mem_cons_self _ _)
    unfold mapSet
    rw [if_neg hne,
      mapSet_of_not_mem k v m (fun hm => h (List.mem_cons_of_mem _ hm))]
    rfl

/-- `Map.set` on a present key preserves the key sequence. -/
theorem keysOf_mapSet_of_mem (k v : String) :
    ∀ m, k ∈ keysOf m → keysOf (mapSet k v m) = keysOf m
  | [], h => absurd h (by simp [keysOf])
  | e :: m, h => by
    unfold mapSet
    split
    · rename_i hb
      rw [keysOf_cons, keysOf_cons, eq_of_beq hb]
    · rename_i hb
      have hk : k ∈ keysOf m := by
        rw [keysOf_cons] at h
        rcases List.mem_cons.mp h with h1 | h1
        · exact absurd (by simp [h1] : (e.1 == k) = true) hb
        · exact h1
      rw [keysOf_cons, keysOf_cons, keysOf_mapSet_of_mem k v m hk]

/-- `Map.set` preserves distinctness of the keys. -/
theorem keysOf_mapSet_nodup (k v : String) (m : List (String × String))
    (hnd : (keysOf m).Nodup) : (keysOf (mapSet k v m)).Nodup := by
  by_cases hk : k ∈ keysOf m
  · rw [keysOf_mapSet_of_mem k v m hk]
    exact hnd
  · rw [mapSet_of_not_mem k v m hk, keysOf_append]
    refine List.Nodup.append hnd (by simp [keysOf]) ?_
    intro a ha hb
    rw [show keysOf [(k, v)] = [k] from rfl, List.mem_singleton] at hb
    subst hb
    exact hk ha

/-- Deleting the key of the head entry removes exactly it. -/
theorem mapDelete_head (k : String) (v : String) (m : List (String × String)) :
    mapDelete k ((k, v) :: m) = m := by
  simp only [mapDelete]
  rw [if_pos (by simp)]

/-- Deleting another key keeps the head entry. -/
theorem mapDelete_cons_ne (k : String) (e : String × String)
    (m : List (String × String)) (h : e.1 ≠ k) :
    mapDelete k (e :: m) = e :: mapDelete k m := by
  simp only [mapDelete]
  rw [if_neg (by simp [h])]

/-- The eviction fold commutes with a head entry whose key it never
deletes. -/
theorem foldDelete_cons_out :
    ∀ (ks : List String) (e : String × String) (m : List (String × String)),
      e.1 ∉ ks →
      ks.foldl (fun acc key => if key != "" then mapDelete key acc else acc) (e :: m) =
        e :: ks.foldl (fun acc key => if key != "" then mapDelete key acc else acc) m
  | [], _, _, _ => rfl
  | k :: ks, e, m, h => by
    have hek : e.1 ≠ k := fun hh => h (by rw [hh]; exact List.mem_cons_self k ks)
    simp only [List.foldl_cons]
    by_cases hk : (k != "") = true
    · rw [if_pos hk, if_pos hk, mapDelete_cons_ne k e m hek]
      exact foldDelete_cons_out ks e _ (fun hm => h (List.mem_cons_of_mem _ hm))
    · rw [if_neg hk, if_neg hk]
      exact foldDelete_cons_out ks e m (fun hm => h (List.mem_cons_of_mem _ hm))

/-- The eviction fold over the keys of a prefix of the map deletes exactly
the prefix entries with nonempty (truthy) keys. -/
theorem foldDelete_prefix :
    ∀ (pre rest : List (String × String)), (keysOf (pre ++ rest)).Nodup →
      (keysOf pre).foldl (fun acc key => if key != "" then mapDelete key acc else acc)
        (pre ++ rest) = pre.filter (fun e => e.1 == "") ++ rest
  | [], rest, _ => rfl
  | (k, v) :: pre, rest, hnd => by
    have hnd0 : (k :: keysOf (pre ++ rest)).Nodup := by simpa [keysOf] using hnd
    have hk_not : k ∉ keysOf (pre ++ rest) := (List.nodup_cons.mp hnd0).1
    have hnd' : (keysOf (pre ++ rest)).Nodup := (List.nodup_cons.mp hnd0).2
    have hsubpre : k ∉ keysOf pre := fun hm =>
      hk_not (by rw [keysOf_append]; exact List.mem_append_left _ hm)
    simp only [keysOf, List.map_cons, List.foldl_cons, List.cons_append]
    by_cases hk : k = ""
    · subst hk
      rw [if_neg (by simp)]
      rw [foldDelete_cons_out (pre.map Prod.fst) ("", v) (pre ++ rest) hsubpre]
      rw [show (pre.map Prod.fst).foldl
            (fun acc key => if key != "" then mapDelete key acc else acc) (pre ++ rest) =
          pre.filter (fun e => e.1 == "") ++ rest from foldDelete_prefix pre rest hnd']
      simp
    · rw [if_pos (by simp [hk]), mapDelete_head k v (pre ++ rest)]
      rw [show (pre.map Prod.fst).foldl
            (fun acc key => if key != "" then mapDelete key acc else acc) (pre ++ rest) =
          pre.filter (fun e => e.1 == "") ++ rest from foldDelete_prefix pre rest hnd']
      simp [hk]

/-- Closed form of the eviction pass: the first 100 entries are removed,
except those keyed by the empty string. -/
theorem cleanupOldest_eq (m : List (String × String)) (hnd : (keysOf m).Nodup) :
    cleanupOldest m = (m.take 100).filter (fun e => e.1 == "") ++ m.drop 100 := by
  unfold cleanupOldest
  have h1 : (keysOf m).take 100 = keysOf (m.take 100) := by
    simp [keysOf, List.map_take]
  rw [h1]
  have h2 := foldDelete_prefix (m.take 100) (m.drop 100)
    (by rw [List.take_append_drop]; exact hnd)
  rw [List.take_append_drop] at h2
  exact h2

/-- Entries with an absent key filter to nothing. -/
theorem filter_key_eq_nil {x : String} :
    ∀ l : List (String × String), x ∉ keysOf l →
      l.filter (fun e => e.1 == x) = [] := by
  intro l hx
  rw [List.filter_eq_nil_iff]
  intro e he hb
  exact hx (eq_of_beq hb ▸ mem_keysOf_of_mem he)

/-- With distinct keys, at most one entry carries any given key. -/
theorem filter_key_length_le_one :
    ∀ l : List (String × String), (keysOf l).Nodup → ∀ x : String,
      (l.filter (fun e => e.1 == x)).length ≤ 1
  | [], _, _ => by simp
  | e :: l, hnd, x => by
    have hnd0 : (e.1 :: keysOf l).Nodup := by simpa [keysOf] using hnd
    have he_not : e.1 ∉ keysOf l := (List.nodup_cons.mp hnd0).1
    have hnd' : (keysOf l).Nodup := (List.nodup_cons.mp hnd0).2
    rw [List.filter_cons]
    by_cases hb : (e.1 == x) = true
    · rw [if_pos hb]
      have : l.filter (fun e => e.1 == x) = [] :=
        filter_key_eq_nil l (eq_of_beq hb ▸ he_not)
      simp [this]
    · rw [if_neg hb]
      exact filter_key_length_le_one l hnd' x

/-- Eviction closed form of `addToCache` at exactly full capacity with a
fresh key. -/
theorem addToCache_evict_eq (rt : List (String × String)) (t u : String)
    (hnd : (keysOf rt).Nodup) (h500 : rt.length = 500)
    (hfresh : normalizeText t ∉ keysOf rt) :
    addToCache t u rt =
      (rt.take 100).filter (fun e => e.1 == "") ++
        (rt.drop 100 ++ [(normalizeText t, u)]) := by
  have hm : mapSet (normalizeText t) u rt = rt ++ [(normalizeText t, u)] :=
    mapSet_of_not_mem _ _ _ hfresh
  have hndm : (keysOf (mapSet (normalizeText t) u rt)).Nodup :=
    keysOf_mapSet_nodup _ _ _ hnd
  rw [hm] at hndm
  simp only [addToCache]
  rw [hm]
  rw [if_pos (by simp [h500, maxCacheSize])]
  rw [cleanupOldest_eq _ hndm]
  rw [List.take_append_of_le_length (by omega), List.drop_append_of_le_length (by omega)]

/-- When the first 100 keys are all truthy, eviction removes exactly the
100 oldest entries. -/
theorem addToCache_evict_clean (rt : List (String × String)) (t u : String)
    (hnd : (keysOf rt).Nodup) (h500 : rt.length = 500)
    (hfresh : normalizeText t ∉ keysOf rt)
    (hne : ∀ e ∈ rt.take 100, e.1 ≠ "") :
    addToCache t u rt = rt.drop 100 ++ [(normalizeText t, u)] ∧
    (addToCache t u rt).length = 401 := by
  have he := addToCache_evict_eq rt t u hnd h500 hfresh
  have hfil : (rt.take 100).filter (fun e => e.1 == "") = [] := by
    rw [List.filter_eq_nil_iff]
    intro e hee hb
    exact hne e hee (eq_of_beq hb)
  refine ⟨by rw [he, hfil]; rfl, ?_⟩
  rw [he, hfil]
  simp [h500]

/-- The tracker size stays within capacity across any insert. -/
theorem addToCache_length_le (rt : List (String × String)) (t u : String)
    (hnd : (keysOf rt).Nodup) (hle : rt.length ≤ 500) :
    (addToCache t u rt).length ≤ 500 := by
  have hmlen := mapSet_length_le (normalizeText t) u rt
  simp only [addToCache]
  split
  · rename_i hgt
    have hndm := keysOf_mapSet_nodup (normalizeText t) u rt hnd
    rw [cleanupOldest_eq _ hndm]
    have hndt : (keysOf ((mapSet (normalizeText t) u rt).take 100)).Nodup := by
      have : keysOf ((mapSet (normalizeText t) u rt).take 100) =
          (keysOf (mapSet (normalizeText t) u rt)).take 100 := by
        simp [keysOf, List.map_take]
      rw [this]
      exact List.Nodup.sublist (List.take_sublist _ _) hndm
    have hfil := filter_key_length_le_one _ hndt ""
    rw [List.length_append, List.length_drop]
    unfold maxCacheSize at hgt
    omega
  · rename_i hng
    unfold maxCacheSize at hng
    omega

/-- C6, amended.  With distinct tracker keys: (1) an insert into a tracker
within capacity (500) leaves at most 500 entries; (2) an insert of a
fresh normalized text into an exactly-full tracker evicts the 100 oldest
entries EXCEPT any entry keyed by the empty normalized text (skipped by
the falsy-key check), and when the first 100 keys are all nonempty it
removes exactly the 100 oldest, leaving 401 entries. -/
theorem cache_eviction (rt : List (String × String)) (t u : String)
    (hnd : (keysOf rt).Nodup) :
    (rt.length ≤ 500 → (addToCache t u rt).length ≤ 500) ∧
    (rt.length = 500 → normalizeText t ∉ keysOf rt →
      (addToCache t u rt =
         (rt.take 100).filter (fun e => e.1 == "") ++
           (rt.drop 100 ++ [(normalizeText t, u)]) ∧
       ((∀ e ∈ rt.take 100, e.1 ≠ "") →
         addToCache t u rt = rt.drop 100 ++ [(normalizeText t, u)] ∧
         (addToCache t u rt).length = 401))) :=
  ⟨fun hle => addToCache_length_le rt t u hnd hle,
   fun h500 hfresh =>
    ⟨addToCache_evict_eq rt t u hnd h500 hfresh,
     fun hne => addToCache_evict_clean rt t u hnd h500 hfresh hne⟩⟩

/-! Concrete facts about `badKey`, `rtFull` and `badPosts`. -/

theorem badKey_inj : Function.Injective badKey := by
  intro i j h
  have h2 := congrArg String.length h
  simp only [badKey, String.length] at h2
  simp at h2
  omega

theorem badKey_ne_empty (i : Nat) : badKey i ≠ "" := by
  intro h
  have h2 := congrArg String.length h
  simp only [badKey, String.length] at h2
  simp at h2

theorem keysOf_rtFull : keysOf rtFull = (List.range 500).map badKey := by
  simp [keysOf, rtFull, List.map_map, Function.comp]

theorem rtFull_nodup : (keysOf rtFull).Nodup := by
  rw [keysOf_rtFull]
  exact List.Nodup.map badKey_inj (List.nodup_range 500)

theorem rtFull_length : rtFull.length = 500 := by simp [rtFull]

theorem empty_not_in_rtFull : ("" : String) ∉ keysOf rtFull := by
  rw [keysOf_rtFull]
  intro h
  obtain ⟨i, _, hi⟩ := List.mem_map.mp h
  exact badKey_ne_empty i hi

theorem rtFull_take_keys_ne : ∀ e ∈ rtFull.take 100, e.1 ≠ "" := by
  intro e he
  have hm : e ∈ rtFull := List.mem_of_mem_take he
  obtain ⟨i, _, hi⟩ := List.mem_map.mp hm
  rw [← hi]
  exact badKey_ne_empty i

/-- Witness for the amended C6: inserting a fresh text into a full
500-entry tracker with distinct nonempty keys evicts exactly the 100
oldest entries, leaving 401 ≤ 500. -/
theorem cache_eviction_witness :
    (keysOf rtFull).Nodup ∧ rtFull.length = 500 ∧
    normalizeText "!!!" ∉ keysOf rtFull ∧
    addToCache "!!!" "u0" rtFull = rtFull.drop 100 ++ [("", "u0")] ∧
    (addToCache "!!!" "u0" rtFull).length = 401 ∧
    (addToCache "!!!" "u0" rtFull).length ≤ 500 := by
  have hnorm : normalizeText "!!!" = "" := by decide
  have hfresh : normalizeText "!!!" ∉ keysOf rtFull := by
    rw [hnorm]
    exact empty_not_in_rtFull
  have h := cache_eviction rtFull "!!!" "u0" rtFull_nodup
  have h2 := (h.2 rtFull_length hfresh).2 rtFull_take_keys_ne
  refine ⟨rtFull_nodup, rtFull_length, hfresh, ?_, h2.2, h.1 (by rw [rtFull_length])⟩
  rw [h2.1, hnorm]

/-! The counterexample machinery: recording fresh keys appends, so the
501-insert scenario reduces to one eviction whose closed form keeps the
empty-keyed oldest entry. -/

theorem map_toLower_id :
    ∀ l : List Char, (∀ c ∈ l, Char.toLower c = c) → l.map Char.toLower = l
  | [], _ => rfl
  | c :: l, h => by
    rw [List.map_cons, h c (List.mem_cons_self c l),
      map_toLower_id l (fun d hd => h d (List.mem_cons_of_mem c hd))]

theorem collapseWsAux_no_ws (b : Bool) :
    ∀ cs : List Char, (∀ c ∈ cs, jsIsWs c = false) → collapseWsAux b cs = cs
  | [], _ => rfl
  | c :: cs, h => by
    unfold collapseWsAux
    rw [if_neg (by simp [h c (List.mem_cons_self c cs)])]
    rw [collapseWsAux_no_ws false cs (fun d hd => h d (List.mem_cons_of_mem c hd))]

theorem jsTrim_no_ws (cs : List Char) (h : ∀ c ∈ cs, jsIsWs c = false) :
    jsTrim cs = cs := by
  unfold jsTrim
  rw [dropWhile_no _ cs h,
    dropWhile_no _ _ (fun c hc => h c (List.mem_reverse.mp hc)),
    List.reverse_reverse]

/-- `normalizeText` fixes strings of plain word characters. -/
theorem normalizeText_plain (cs : List Char)
    (h : ∀ c ∈ cs, jsIsWs c = false ∧ wordChar c = true ∧ Char.toLower c = c) :
    normalizeText (String.mk cs) = String.mk cs := by
  have h1 : (lowerStr (String.mk cs)).data = cs :=
    map_toLower_id cs (fun c hc => (h c hc).2.2)
  show String.mk (jsTrim (((collapseWs (lowerStr (String.mk cs)).data).filter
    (fun c => wordChar c || jsIsWs c)))) = String.mk cs
  rw [h1]
  rw [show collapseWs cs = collapseWsAux false cs from rfl,
    collapseWsAux_no_ws false cs (fun c hc => (h c hc).1)]
  rw [List.filter_eq_self.mpr (fun c hc => by simp [(h c hc).2.1])]
  rw [jsTrim_no_ws cs (fun c hc => (h c hc).1)]

theorem normalizeText_badKey (i : Nat) : normalizeText (badKey i) = badKey i :=
  normalizeText_plain _ (fun c hc => by
    rw [List.eq_of_mem_replicate hc]
    exact ⟨by decide, by decide, by decide⟩)

/-- Recording a batch of fresh, pairwise-distinct normalized texts into a
tracker with room appends them in order. -/
theorem recordAll_fresh :
    ∀ (posts : List (String × String)) (rt : List (String × String)),
      rt.length + posts.length ≤ 500 →
      (keysOf rt ++ posts.map (fun p => normalizeText p.1)).Nodup →
      recordAll posts rt = rt ++ posts.map (fun p => (normalizeText p.1, p.2))
  | [], rt, _, _ => by simp [recordAll]
  | p :: posts, rt, hlen, hnd => by
    have hnd1 : (keysOf rt ++ normalizeText p.1 ::
        posts.map (fun p => normalizeText p.1)).Nodup := by simpa using hnd
    have hfresh : normalizeText p.1 ∉ keysOf rt := by
      intro hm
      rcases List.nodup_append.mp hnd1 with ⟨_, _, hdisj⟩
      exact hdisj hm (List.mem_cons_self _ _)
    have hset : mapSet (normalizeText p.1) p.2 rt =
        rt ++ [(normalizeText p.1, p.2)] := mapSet_of_not_mem _ _ _ hfresh
    have hadd : addToCache p.1 p.2 rt = rt ++ [(normalizeText p.1, p.2)] := by
      rw [← hset]
      apply addToCache_of_le
      rw [hset]
      simp only [List.length_append, List.length_cons, List.length_nil]
      unfold maxCacheSize
      simp only [List.length_cons] at hlen
      omega
    have hstep : recordAll (p :: posts) rt = recordAll posts (addToCache p.1 p.2 rt) := by
      simp [recordAll]
    rw [hstep, hadd]
    rw [recordAll_fresh posts (rt ++ [(normalizeText p.1, p.2)])
      (by simp only [List.length_append, List.length_cons, List.length_nil]
          simp only [List.length_cons] at hlen
          omega)
      (by rw [keysOf_append]
          simpa [List.append_assoc] using hnd1)]
    simp

set_option maxRecDepth 10000

theorem recordAll_append (l1 l2 rt) :
    recordAll (l1 ++ l2) rt = recordAll l2 (recordAll l1 rt) := by
  simp [recordAll, List.foldl_append]

theorem recordAll_snoc (l : List (String × String)) (p : String × String)
    (rt : List (String × String)) :
    recordAll (l ++ [p]) rt = addToCache p.1 p.2 (recordAll l rt) := by
  simp [recordAll, List.foldl_append]

theorem cacheAfter500_length : cacheAfter500.length = 500 := by simp [cacheAfter500]

theorem keysOf_cacheAfter500 :
    keysOf cacheAfter500 = "" :: (List.range 499).map badKey := by
  simp [keysOf, cacheAfter500, List.map_map, Function.comp]

theorem cacheAfter500_nodup : (keysOf cacheAfter500).Nodup := by
  rw [keysOf_cacheAfter500]
  refine List.nodup_cons.mpr ⟨?_, List.Nodup.map badKey_inj (List.nodup_range 499)⟩
  intro h
  obtain ⟨i, _, hi⟩ := List.mem_map.mp h
  exact badKey_ne_empty i hi

theorem badKey499_fresh : normalizeText (badKey 499) ∉ keysOf cacheAfter500 := by
  rw [normalizeText_badKey, keysOf_cacheAfter500]
  intro h
  rcases List.mem_cons.mp h with h1 | h1
  · exact badKey_ne_empty 499 h1
  · obtain ⟨i, hir, hi⟩ := List.mem_map.mp h1
    have : i = 499 := badKey_inj hi
    subst this
    exact absurd (List.mem_range.mp hir) (by omega)

/-- Counterexample to C6 as stated: recording 501 posts with pairwise
distinct normalized texts, the first normalizing to the empty string,
does NOT evict the 100 oldest entries — the empty-keyed oldest entry
survives the falsy-key check, and the tracker ends at 402 entries. -/
theorem eviction_skips_empty_counterexample :
    (badPosts.map (fun p => normalizeText p.1)).Nodup ∧
    badPosts.length = 501 ∧
    ("", "u0") ∈ recordAll badPosts [] ∧
    (recordAll badPosts []).length = 402 := by
  have hmapnorm : badPosts.map (fun p => normalizeText p.1) =
      "" :: (List.range 500).map badKey := by
    simp only [badPosts, List.map_cons, List.map_map]
    rw [show normalizeText "!!!" = "" from by decide]
    exact congrArg (List.cons "")
      (List.map_congr_left (fun i _ => by simp [Function.comp, normalizeText_badKey]))
  have hnodupnorm : (badPosts.map (fun p => normalizeText p.1)).Nodup := by
    rw [hmapnorm]
    refine List.nodup_cons.mpr ⟨?_, List.Nodup.map badKey_inj (List.nodup_range 500)⟩
    intro h
    obtain ⟨i, _, hi⟩ := List.mem_map.mp h
    exact badKey_ne_empty i hi
  have hsplit : badPosts =
      (("!!!", "u0") :: (List.range 499).map (fun i => (badKey i, "u"))) ++
        [(badKey 499, "u")] := by
    show ("!!!", "u0") :: (List.range 500).map (fun i => (badKey i, "u")) = _
    rw [List.range_succ]
    simp
  have hF : recordAll
      (("!!!", "u0") :: (List.range 499).map (fun i => (badKey i, "u"))) [] =
      cacheAfter500 := by
    rw [recordAll_fresh _ [] (by simp) ?nodup]
    · simp only [List.nil_append, List.map_cons, List.map_map, cacheAfter500]
      rw [show normalizeText "!!!" = "" from by decide]
      exact congrArg (List.cons ("", "u0"))
        (List.map_congr_left (fun i _ => by simp [Function.comp, normalizeText_badKey]))
    case nodup =>
      rw [show keysOf [] = [] from rfl, List.nil_append]
      have hq : (("!!!", "u0") :: (List.range 499).map (fun i => (badKey i, "u"))).map
            (fun p => normalizeText p.1) =
          "" :: (List.range 499).map badKey := by
        simp only [List.map_cons, List.map_map]
        rw [show normalizeText "!!!" = "" from by decide]
        exact congrArg (List.cons "")
          (List.map_congr_left (fun i _ => by simp [Function.comp, normalizeText_badKey]))
      rw [hq]
      refine List.nodup_cons.mpr ⟨?_, List.Nodup.map badKey_inj (List.nodup_range 499)⟩
      intro h
      obtain ⟨i, _, hi⟩ := List.mem_map.mp h
      exact badKey_ne_empty i hi
  have hlast : recordAll badPosts [] = addToCache (badKey 499) "u" cacheAfter500 := by
    rw [hsplit, recordAll_snoc, hF]
  have hevict := addToCache_evict_eq cacheAfter500 (badKey 499) "u"
    cacheAfter500_nodup cacheAfter500_length badKey499_fresh
  have htake : (cacheAfter500.take 100).filter (fun e => e.1 == "") = [("", "u0")] := by
    rw [show (100 : Nat) = 99 + 1 from rfl]
    rw [show cacheAfter500.take (99 + 1) =
        ("", "u0") :: ((List.range 499).map (fun i => (badKey i, "u"))).take 99 from rfl]
    rw [List.filter_cons, if_pos (by decide)]
    have : (((List.range 499).map (fun i => (badKey i, "u"))).take 99).filter
        (fun e => e.1 == "") = [] := by
      rw [List.filter_eq_nil_iff]
      intro e he hb
      have hm : e ∈ (List.range 499).map (fun i => (badKey i, "u")) :=
        List.mem_of_mem_take he
      obtain ⟨i, _, hi⟩ := List.mem_map.mp hm
      exact badKey_ne_empty i (by rw [← hi] at hb; exact eq_of_beq hb)
    rw [this]
  have hresult : recordAll badPosts [] =
      ("", "u0") :: (cacheAfter500.drop 100 ++ [(badKey 499, "u")]) := by
    rw [hlast, hevict, htake, normalizeText_badKey]
    rfl
  refine ⟨hnodupnorm, by simp [badPosts], ?_, ?_⟩
  · rw [hresult]
    exact List.mem_cons_self _ _
  · rw [hresult]
    simp [cacheAfter500]

end Verification

end AITweet
